import Mathlib

/-!
# Verification of the Airbitrage scout-then-snipe pipeline

A shallow embedding, in Lean 4, of the core of the `airbitrage` repository:
the price/text extraction regexes (`src/agents/scout/sources.ts`), the
programmatic spread filter (`src/agents/scout/filter.ts`), the token budget
ledger (`src/lib/budget.ts`), the agent concurrency queue
(`src/lib/agent-queue.ts`) and the scout-then-snipe runner
(`src/agents/scout/runner.ts`), together with theorems settling the
specification's claims about them.

Modelling conventions, used throughout:
* JavaScript numbers are modelled as `Int` (integer cent amounts, token
  counts) or `Rat` (prices in dollars, percentages, fee rates).  For every
  arithmetic expression embedded here the double-precision computation of
  the source is exact at the relevant comparisons, so `Rat` is faithful.
* `Math.round` is modelled by `jsRound` (floor of `x + 1/2`), which is the
  ECMAScript rounding rule for non-negative arguments.
* Network and file-system effects (`fetch`, timers, the usage-ledger file,
  the Claude API) are modelled by oracles: the values those calls would
  return are inputs of the embedded functions.  Progress-event emission and
  `console.log` calls return no value and are omitted.
* JavaScript regular expressions used by the source are embedded as
  deterministic character-list scanners.  Each of the concrete patterns of
  the source admits a deterministic scan (every backtracking choice point
  is resolved the same way on all inputs, because the character class of a
  greedy/optional piece is disjoint from the first set of its
  continuation); the scanners below implement those resolutions.
* `Array.prototype.sort` (stable since ES2019) is modelled by a stable
  insertion sort; any two stable sorts under the same total preorder agree.
-/

namespace Airbitrage

/-! ## JavaScript-semantics helpers -/

/-- `Math.round` for the non-negative arguments that occur in the source:
round half up. -/
def jsRound (q : ℚ) : ℤ := ⌊q + 1/2⌋

/-- The whitespace characters recognised by the embedded `\s` class (the
ASCII part of the ECMAScript class; no source string containing the exotic
Unicode spaces reaches these regexes). -/
def isJsWs (c : Char) : Bool :=
  c = ' ' || c = '\t' || c = '\n' || c = '\r' || c = '\x0b' || c = '\x0c'

/-- Stable insertion sort; `le x y = true` means `x` may stay before `y`.
Models `Array.prototype.sort` with a comparator `cmp` via
`le x y ↔ cmp x y ≤ 0`. -/
def sortJS (le : α → α → Bool) : List α → List α
  | [] => []
  | x :: xs => insertJS le x (sortJS le xs)
where
  insertJS (le : α → α → Bool) (x : α) : List α → List α
    | [] => [x]
    | y :: ys => if le y x then y :: insertJS le x ys else x :: y :: ys

theorem mem_insertJS (le : α → α → Bool) (x a : α) (l : List α) :
    a ∈ sortJS.insertJS le x l ↔ a = x ∨ a ∈ l := by
  induction l with
  | nil => simp [sortJS.insertJS]
  | cons y ys ih =>
    by_cases h : le y x = true <;>
      simp [sortJS.insertJS, h, ih] <;> tauto

theorem mem_sortJS (le : α → α → Bool) (a : α) (l : List α) :
    a ∈ sortJS le l ↔ a ∈ l := by
  induction l with
  | nil => simp [sortJS]
  | cons x xs ih => simp [sortJS, mem_insertJS, ih]

/-! ## Price extraction (`sources.ts`: `extractPrice`, `extractAllPrices`)

The source scans a text with three global regexes in order
(`/\$\s?([\d,]+(?:\.\d{2})?)/g`, `/USD\s?([\d,]+(?:\.\d{2})?)/gi`,
`/price[:\s]+\$?([\d,]+(?:\.\d{2})?)/gi`), converts every captured group
to cents with `Math.round(parseFloat(group.replace(/,/g, '')) * 100)`,
keeps values with `0 < num < 1000000` dollars, and returns the first kept
value (or all kept `$`-matches, for `extractAllPrices`).

A captured group is a non-empty run of digits and commas optionally
followed by `.dd`; after comma removal `parseFloat` yields
`whole + frac/100` exactly, and `Math.round(value * 100)` is exactly
`100 * whole + frac` for all in-range values (the double-precision error
is far below 1/2), so a match is modelled directly by its cent value. -/

/-- Value of a digit character. -/
def digitVal (c : Char) : ℕ := c.toNat - 48

/-- Characters matched by the `[\d,]` class. -/
def isAmtChar (c : Char) : Bool := c.isDigit || c = ','

/-- Numeric value of a digit string (most significant first). -/
def digitsVal (l : List Char) : ℕ := l.foldl (fun a c => 10 * a + digitVal c) 0

/-- Scan the amount group `[\d,]+(?:\.\d{2})?` at the head of the input.
Returns the cent value of the group (`100 * whole + frac`; `0` when
`parseFloat` would return `NaN` or `0`) and the unconsumed rest. -/
def scanAmount (cs : List Char) : Option (ℕ × List Char) :=
  let run := cs.takeWhile isAmtChar
  if run.isEmpty then none else
  let rest := cs.drop run.length
  let whole := digitsVal (run.filter Char.isDigit)
  match rest with
  | '.' :: d1 :: d2 :: r2 =>
    if d1.isDigit && d2.isDigit then
      some (100 * whole + 10 * digitVal d1 + digitVal d2, r2)
    else some (100 * whole, rest)
  | _ => some (100 * whole, rest)

/-- Consume one optional whitespace character (`\s?`). -/
def skipOneWs (cs : List Char) : List Char :=
  match cs with
  | c :: t => if isJsWs c then t else cs
  | [] => []

/-- Case-insensitive literal prefix match; `pat` is given in lower case. -/
def stripPrefixCi (pat : List Char) (cs : List Char) : Option (List Char) :=
  match pat, cs with
  | [], rest => some rest
  | p :: ps, c :: t => if c.toLower = p then stripPrefixCi ps t else none
  | _ :: _, [] => none

/-- One match attempt of `/\$\s?([\d,]+(?:\.\d{2})?)/` at the head. -/
def matchDollarAt (cs : List Char) : Option (ℕ × List Char) :=
  match cs with
  | '$' :: r => scanAmount (skipOneWs r)
  | _ => none

/-- One match attempt of `/USD\s?([\d,]+(?:\.\d{2})?)/i` at the head. -/
def matchUsdAt (cs : List Char) : Option (ℕ × List Char) :=
  (stripPrefixCi ['u', 's', 'd'] cs).bind fun r => scanAmount (skipOneWs r)

/-- One match attempt of `/price[:\s]+\$?([\d,]+(?:\.\d{2})?)/i` at the
head. -/
def matchPriceAt (cs : List Char) : Option (ℕ × List Char) :=
  (stripPrefixCi ['p', 'r', 'i', 'c', 'e'] cs).bind fun r =>
    let sep := r.takeWhile (fun c => c = ':' || isJsWs c)
    if sep.isEmpty then none else
    let r2 := r.drop sep.length
    let r3 := match r2 with
      | '$' :: t => t
      | _ => r2
    scanAmount r3

/-- All matches of a pattern, in scan order, as produced by repeated
`RegExp.exec` with the `g` flag: at each position try the pattern; on a
match, emit its group value and resume after the match, otherwise advance
one character.  Every embedded pattern consumes at least one character, so
`cs.length` steps of fuel are exact. -/
def execAllAux (m : List Char → Option (ℕ × List Char)) :
    ℕ → List Char → List ℕ
  | 0, _ => []
  | _ + 1, [] => []
  | n + 1, c :: t =>
    match m (c :: t) with
    | some (v, rest) => v :: execAllAux m n rest
    | none => execAllAux m n t

/-- All matches of a pattern over a text (see `execAllAux`). -/
def execAll (m : List Char → Option (ℕ × List Char)) (cs : List Char) :
    List ℕ :=
  execAllAux m cs.length cs

/-- The push condition of the source: `0 < num < 1000000` dollars, i.e.
`0 < cents < 100000000`; this also discards `NaN` groups (cent value 0). -/
def inRangeCents (v : ℕ) : Bool := 0 < v && v < 100000000

/-- `extractPrice` on a character list: collect the in-range matches of the
three patterns in pattern order and return the first. -/
def extractPriceL (cs : List Char) : Option ℕ :=
  let prices :=
    (execAll matchDollarAt cs).filter inRangeCents
      ++ (execAll matchUsdAt cs).filter inRangeCents
      ++ (execAll matchPriceAt cs).filter inRangeCents
  prices.head?

/-- `sources.ts` `extractPrice(text)`: first in-range price, in cents. -/
def extractPrice (s : String) : Option ℤ :=
  (extractPriceL s.toList).map Int.ofNat

/-- `sources.ts` `extractAllPrices(text)`: every in-range `$`-match. -/
def extractAllPrices (s : String) : List ℤ :=
  ((execAll matchDollarAt s.toList).filter inRangeCents).map Int.ofNat

/-! ## Deal price-pair extraction (`filter.ts`: `extractDealPricePair`)

The source tries four structured "deal/regular" regexes in order with
`String.match` (first match in the text), converts each captured amount
with `parseDollar` (cents when `0 < num < 1000000` dollars, else `0`) and
returns the pair when `deal > 0 && regular > deal`, falling through to the
next pattern otherwise. -/

/-- `parseDollar` of `extractDealPricePair`: the cent value of a captured
group when in range, `0` otherwise (this also absorbs `NaN` groups). -/
def parseDollar (g : ℕ) : ℤ := if 0 < g ∧ g < 100000000 then (g : ℤ) else 0

/-- Drop a whitespace run (`\s*`). -/
def wsRun (cs : List Char) : List Char := cs.dropWhile isJsWs

/-- First match of an anchored pattern over a text (`String.match` without
the `g` flag): try the pattern at each position from the left. -/
def findFirst (p : List Char → Option α) : List Char → Option α
  | [] => p []
  | c :: t =>
    match p (c :: t) with
    | some x => some x
    | none => findFirst p t

/-- `\$\s?([\d,]+(?:\.\d{2})?)` as a prefix step. -/
def dollarAmount (cs : List Char) : Option (ℕ × List Char) :=
  match cs with
  | '$' :: r => scanAmount (skipOneWs r)
  | _ => none

/-- `\s*\$?\s?([\d,]+(?:\.\d{2})?)` as a prefix step (second amount of
patterns 2 and 4, where the dollar sign is optional). -/
def amountAfterOptDollar (cs : List Char) : Option (ℕ × List Char) :=
  let r1 := wsRun cs
  let r2 := match r1 with
    | '$' :: t => skipOneWs t
    | _ => r1
  scanAmount r2

/-- Pattern 1,
`\$\s?(AMT)\s*\(\s*\d+%\s*off\s*\$\s?(AMT)\s*\)` (case-insensitive),
attempted at the head; returns the two captured cent values. -/
def pctOffAt (cs : List Char) : Option (ℕ × ℕ) := do
  let (g1, r1) ← dollarAmount cs
  let r2 ← match wsRun r1 with
    | '(' :: t => some t
    | _ => none
  let r3 := wsRun r2
  let ds := r3.takeWhile Char.isDigit
  if ds.isEmpty then none else
  let r4 ← match r3.drop ds.length with
    | '%' :: t => some t
    | _ => none
  let r5 ← stripPrefixCi ['o', 'f', 'f'] (wsRun r4)
  let r6 ← match wsRun r5 with
    | '$' :: t => some t
    | _ => none
  let (g2, r7) ← scanAmount (skipOneWs r6)
  match wsRun r7 with
  | ')' :: _ => some (g1, g2)
  | _ => none

/-- Tail of pattern 2 after its keyword alternation:
`\s*\$?\s?(AMT)\s*\)`. -/
def wasTail (cs : List Char) : Option ℕ := do
  let (g2, r) ← amountAfterOptDollar cs
  match wsRun r with
  | ')' :: _ => some g2
  | _ => none

/-- The keyword alternation of pattern 2,
`was|reg\.?|originally|msrp|regular\s*(?:price)?|retail` (case-insensitive),
fused with `wasTail`; the alternatives are tried in source order, each
followed by the full continuation, as a backtracking engine would. -/
def wasAlt (cs : List Char) : Option ℕ :=
  let try1 := (stripPrefixCi ['w', 'a', 's'] cs).bind wasTail
  let try2 := (stripPrefixCi ['r', 'e', 'g'] cs).bind fun r =>
    wasTail (match r with
      | '.' :: t => t
      | _ => r)
  let try3 :=
    (stripPrefixCi ['o', 'r', 'i', 'g', 'i', 'n', 'a', 'l', 'l', 'y'] cs).bind
      wasTail
  let try4 := (stripPrefixCi ['m', 's', 'r', 'p'] cs).bind wasTail
  let try5 := (stripPrefixCi ['r', 'e', 'g', 'u', 'l', 'a', 'r'] cs).bind
    fun r =>
      let r1 := wsRun r
      wasTail (match stripPrefixCi ['p', 'r', 'i', 'c', 'e'] r1 with
        | some t => t
        | none => r1)
  let try6 := (stripPrefixCi ['r', 'e', 't', 'a', 'i', 'l'] cs).bind wasTail
  (((((try1.or try2).or try3).or try4).or try5).or try6)

/-- Pattern 2,
`\$\s?(AMT)\s*\(\s*(?:was|reg\.?|originally|msrp|regular\s*(?:price)?|retail)\s*\$?\s?(AMT)\s*\)`,
attempted at the head. -/
def wasAt (cs : List Char) : Option (ℕ × ℕ) := do
  let (g1, r1) ← dollarAmount cs
  let r2 ← match wsRun r1 with
    | '(' :: t => some t
    | _ => none
  let g2 ← wasAlt (wsRun r2)
  some (g1, g2)

/-- Pattern 3,
`(?:was|from)\s*\$\s?(AMT)\s*[,.]?\s*(?:now|to|→|->)\s*\$\s?(AMT)`
(case-insensitive), attempted at the head; the first capture is the
regular price, the second the deal price. -/
def wasNowAt (cs : List Char) : Option (ℕ × ℕ) := do
  let r1 ← (stripPrefixCi ['w', 'a', 's'] cs).or
    (stripPrefixCi ['f', 'r', 'o', 'm'] cs)
  let r2 ← match wsRun r1 with
    | '$' :: t => some t
    | _ => none
  let (g1, r3) ← scanAmount (skipOneWs r2)
  let r4 := wsRun r3
  let r5 := match r4 with
    | ',' :: t => t
    | '.' :: t => t
    | _ => r4
  let r6 := wsRun r5
  let r7 ← (((stripPrefixCi ['n', 'o', 'w'] r6).or
    (stripPrefixCi ['t', 'o'] r6)).or
    (stripPrefixCi ['→'] r6)).or
    (stripPrefixCi ['-', '>'] r6)
  let r8 ← match wsRun r7 with
    | '$' :: t => some t
    | _ => none
  let (g2, _) ← scanAmount (skipOneWs r8)
  some (g1, g2)

/-- Pattern 4,
`\$\s?(AMT)\s*[,.]?\s*(?:regularly|normally|usually|list(?:ed)?(?:\s+at)?)\s*\$?\s?(AMT)`
(case-insensitive), attempted at the head. -/
def regAt (cs : List Char) : Option (ℕ × ℕ) := do
  let (g1, r1) ← dollarAmount cs
  let r2 := wsRun r1
  let r3 := match r2 with
    | ',' :: t => t
    | '.' :: t => t
    | _ => r2
  let r4 := wsRun r3
  let cont : List Char → Option ℕ := fun r => (amountAfterOptDollar r).map (·.1)
  let try1 :=
    (stripPrefixCi ['r', 'e', 'g', 'u', 'l', 'a', 'r', 'l', 'y'] r4).bind cont
  let try2 :=
    (stripPrefixCi ['n', 'o', 'r', 'm', 'a', 'l', 'l', 'y'] r4).bind cont
  let try3 :=
    (stripPrefixCi ['u', 's', 'u', 'a', 'l', 'l', 'y'] r4).bind cont
  let try4 := (stripPrefixCi ['l', 'i', 's', 't'] r4).bind fun r =>
    let ra := match stripPrefixCi ['e', 'd'] r with
      | some t => t
      | none => r
    let ws1 := ra.takeWhile isJsWs
    let rb :=
      if ws1.isEmpty then ra
      else match stripPrefixCi ['a', 't'] (ra.drop ws1.length) with
        | some t => t
        | none => ra
    cont rb
  let g2? := (((try1.or try2).or try3).or try4)
  g2?.map (fun g2 => (g1, g2))

/-- `filter.ts` `extractDealPricePair(text)`: first matching structured
pattern, with the `deal > 0 && regular > deal` guard applied per pattern
(a failed guard falls through to the next pattern, as in the source). -/
def extractDealPricePair (s : String) : Option (ℤ × ℤ) :=
  let cs := s.toList
  let fromGroups : ℕ × ℕ → Option (ℤ × ℤ) := fun (gd, gr) =>
    let deal := parseDollar gd
    let regular := parseDollar gr
    if 0 < deal ∧ deal < regular then some (deal, regular) else none
  let p1 := (findFirst pctOffAt cs).bind fromGroups
  let p2 := (findFirst wasAt cs).bind fromGroups
  let p3 := (findFirst wasNowAt cs).bind fun (gr, gd) => fromGroups (gd, gr)
  let p4 := (findFirst regAt cs).bind fromGroups
  ((p1.or p2).or p3).or p4

/-! ## Data model (`sources.ts`, `filter.ts`, `types.ts`)

Money fields hold integer cents (`Int`), crypto prices are dollars
(`Rat`), percentages are `Rat`. -/

/-- `types.ts` `AgentType`. -/
inductive AgentType
  | listings | auctions | crypto | retail | tickets | collectibles | books
  deriving DecidableEq, Repr

/-- `sources.ts` `ScoutLead`.  The optional `marketAvg` field is the
`CollectibleLead` extension of `sources.ts` (the source reads it off a
`ScoutLead` via a structural cast in `qualifyCollectiblesDirectly`), so it
is carried here directly. -/
structure ScoutLead where
  title : String
  url : String
  snippet : String
  source : String
  priceFound : Option ℤ
  category : String
  marketAvg : Option ℤ := none
  deriving DecidableEq, Repr

/-- `sources.ts` `CryptoPrice`. -/
structure CryptoPrice where
  exchange : String
  pair : String
  price : ℚ
  url : String
  timestamp : ℤ
  deriving DecidableEq, Repr

/-- `sources.ts` `DealFeedItem`. -/
structure DealFeedItem where
  title : String
  url : String
  description : String
  source : String
  pubDate : String
  deriving DecidableEq, Repr

/-- `sources.ts` `BookLead` (a `ScoutLead` extension). -/
structure BookLead extends ScoutLead where
  isbn : Option String := none
  author : Option String := none
  publishYear : Option ℤ := none
  deriving DecidableEq, Repr

/-- `sources.ts` `SourceDiagnostic`. -/
structure SourceDiagnostic where
  source : String
  status : String
  statusCode : Option ℤ := none
  error : Option String := none
  itemCount : ℕ
  durationMs : ℕ
  deriving DecidableEq, Repr

/-- `sources.ts` `SourceResult<T>`. -/
structure SourceResult (α : Type) where
  leads : List α
  diagnostics : List SourceDiagnostic
  deriving Repr

/-- The `confidence` union of `QualifiedLead`. -/
inductive Confidence
  | high | medium | low
  deriving DecidableEq, Repr

/-- The `raw` union of `QualifiedLead` (`ScoutLead | DealFeedItem |
CryptoPrice`; book-derived leads store their `BookLead`). -/
inductive RawLead
  | scout (l : ScoutLead)
  | deal (d : DealFeedItem)
  | crypto (c : CryptoPrice)
  | book (b : BookLead)
  deriving DecidableEq, Repr

/-- `filter.ts` `QualifiedLead` (the interface at the claims' cited lines;
it has no `sellPriceType` field). -/
structure QualifiedLead where
  title : String
  description : String
  buyPrice : ℤ
  buySource : String
  buyUrl : String
  sellPriceEstimate : ℤ
  sellSource : String
  sellUrl : String
  estimatedSpread : ℤ
  spreadPercent : ℚ
  confidence : Confidence
  category : String
  raw : RawLead
  deriving DecidableEq, Repr

/-- `filter.ts` `CryptoSpread`. -/
structure CryptoSpread where
  pair : String
  buyExchange : String
  buyPrice : ℚ
  buyUrl : String
  sellExchange : String
  sellPrice : ℚ
  sellUrl : String
  spreadPercent : ℚ
  spreadAmount : ℚ
  deriving DecidableEq, Repr

/-- `filter.ts` `ResalePriceInfo`. -/
structure ResalePriceInfo where
  estimatedPrice : ℤ
  platform : String
  url : String
  dataPoints : ℕ
  listingDataPoints : Option ℕ := none
  deriving DecidableEq, Repr

/-- Pure helper functions of the repository that feed only string fields
never inspected by any claim (`cleanTitleForSearch` is a long chain of
cosmetic regex replacements; `encodeURIComponent` is a JS builtin;
`isListingUrl` is the URL-quality classifier whose verdict orders lookup
priority).  They are taken as parameters so every theorem below holds for
the repository's actual definitions. -/
structure Helpers where
  cleanTitleForSearch : String → String
  encodeURIComponent : String → String
  isListingUrl : String → Bool

/-- The eBay sold-listings search URL built by the filter for leads without
a direct sell URL. -/
def ebaySoldUrl (h : Helpers) (title : String) : String :=
  "https://www.ebay.com/sch/i.html?_nkw="
    ++ h.encodeURIComponent (h.cleanTitleForSearch title)
    ++ "&LH_Sold=1&LH_Complete=1"

/-! ## Crypto spread detection (`filter.ts`: `findCryptoSpreads`) -/

/-- Group prices by pair preserving first-seen pair order and per-pair
insertion order, as a JS `Map` built by repeated `get`/`push`/`set` does. -/
def groupByPair (prices : List CryptoPrice) : List (String × List CryptoPrice) :=
  prices.foldl
    (fun acc p =>
      if acc.any (fun e => e.1 = p.pair) then
        acc.map (fun e => if e.1 = p.pair then (e.1, e.2 ++ [p]) else e)
      else acc ++ [(p.pair, [p])])
    []

/-- The inner double loop of `findCryptoSpreads` for one pair: compare
every unordered exchange pair `(i, j)`, `i < j`, in index order. -/
def pairSpreads (pair : String) (ps : List CryptoPrice) (minSpreadPercent : ℚ) :
    List CryptoSpread :=
  if ps.length < 2 then [] else
  (List.range ps.length).flatMap fun i =>
    (List.range ps.length).filterMap fun j =>
      if i < j then
        match ps[i]?, ps[j]? with
        | some a, some b =>
          let low := if a.price < b.price then a else b
          let high := if a.price < b.price then b else a
          if low.price = 0 then none else
          let spreadPercent := (high.price - low.price) / low.price * 100
          if spreadPercent ≥ minSpreadPercent then
            some
              { pair := pair
                buyExchange := low.exchange
                buyPrice := low.price
                buyUrl := low.url
                sellExchange := high.exchange
                sellPrice := high.price
                sellUrl := high.url
                spreadPercent := spreadPercent
                spreadAmount := high.price - low.price }
          else none
        | _, _ => none
      else none

/-- `filter.ts` `findCryptoSpreads(prices, minSpreadPercent)`.  (The
`low.price = 0` guard stands in for the JS division `x / 0 = Infinity`,
which never qualifies a spread record in practice; exchange prices are
positive.) -/
def findCryptoSpreads (prices : List CryptoPrice)
    (minSpreadPercent : ℚ := 3/10) : List CryptoSpread :=
  let spreads := (groupByPair prices).flatMap fun (pair, ps) =>
    pairSpreads pair ps minSpreadPercent
  sortJS (fun a b => b.spreadPercent ≤ a.spreadPercent) spreads

/-! ## Weighted median (`filter.ts`: `weightedMedian`) -/

/-- An entry of `weightedMedian`. -/
structure WEntry where
  value : ℚ
  weight : ℚ
  deriving DecidableEq, Repr

/-- The cumulative-weight walk of `weightedMedian`. -/
def wmWalk (half : ℚ) : ℚ → List WEntry → Option ℚ
  | _, [] => none
  | cum, e :: rest =>
    if cum + e.weight ≥ half then some e.value
    else wmWalk half (cum + e.weight) rest

/-- `filter.ts` `weightedMedian(entries)`: first value, in ascending value
order, at which the cumulative weight reaches half the total weight. -/
def weightedMedian (entries : List WEntry) : ℚ :=
  match entries with
  | [] => 0
  | [e] => e.value
  | _ =>
    let sorted := sortJS (fun a b => a.value ≤ b.value) entries
    let totalWeight := sorted.foldl (fun s e => s + e.weight) 0
    let halfWeight := totalWeight / 2
    match wmWalk halfWeight 0 sorted with
    | some v => v
    | none => (sorted.getLast?.map (·.value)).getD 0

/-! ## Resale-qualification filter (`filter.ts`: `filterLeadsWithPriceData`)

The resale map built by `batchResaleLookup` (a network procedure) is an
input; `Map.get(url) || Map.get(title)` is `Option.or` because present
map values are objects, hence truthy. -/

/-- The per-lead body of `filterLeadsWithPriceData`; `none` when the lead
is skipped by one of the `continue` guards. -/
def qualifyLead (h : Helpers) (resale : String → Option ResalePriceInfo)
    (minProfitCents : ℤ) (minSpreadPercent : ℚ) (lead : ScoutLead) :
    Option QualifiedLead :=
  match lead.priceFound with
  | none => none
  | some price =>
    if price ≤ 0 then none else
    match (resale lead.url).or (resale lead.title) with
    | none => none
    | some r =>
      if r.estimatedPrice = 0 then none else
      let spread := r.estimatedPrice - price
      let spreadPercent := (spread : ℚ) / (price : ℚ) * 100
      if spread < minProfitCents then none else
      if spreadPercent < minSpreadPercent then none else
      let listingPts := r.listingDataPoints.getD 0
      let confidence :=
        if (listingPts ≥ 2 ∨ r.dataPoints ≥ 5) ∧ spreadPercent > 50 then
          Confidence.high
        else if (listingPts ≥ 1 ∨ r.dataPoints ≥ 3) ∧ spreadPercent > 30 then
          Confidence.medium
        else Confidence.low
      some
        { title := lead.title
          description := lead.snippet
          buyPrice := price
          buySource := lead.source
          buyUrl := lead.url
          sellPriceEstimate := r.estimatedPrice
          sellSource := r.platform
          sellUrl := if r.url = "" then ebaySoldUrl h lead.title else r.url
          estimatedSpread := spread
          spreadPercent := spreadPercent
          confidence := confidence
          category := lead.category
          raw := RawLead.scout lead }

/-- `filter.ts` `filterLeadsWithPriceData(leads, resalePriceData,
minProfitCents, minSpreadPercent)`. -/
def filterLeadsWithPriceData (h : Helpers) (leads : List ScoutLead)
    (resale : String → Option ResalePriceInfo) (minProfitCents : ℤ := 2000)
    (minSpreadPercent : ℚ := 25) : List QualifiedLead :=
  sortJS (fun a b => b.estimatedSpread ≤ a.estimatedSpread)
    (leads.filterMap (qualifyLead h resale minProfitCents minSpreadPercent))

/-! ## Deal-feed filter (`filter.ts`: `filterDealFeedItems`) -/

/-- The per-item body of `filterDealFeedItems`: structured extraction on
the title, then on title+description; on a structured match the fallback
is skipped even when the discount guard fails (`continue`); otherwise the
fallback fires only when the title contains exactly two `$` prices. -/
def qualifyDealItem (h : Helpers) (minDiscountPercent : ℚ)
    (item : DealFeedItem) : Option QualifiedLead :=
  match (extractDealPricePair item.title).or
      (extractDealPricePair (item.title ++ " " ++ item.description)) with
  | some (dealPrice, regularPrice) =>
    let discount := ((regularPrice - dealPrice : ℤ) : ℚ) / (regularPrice : ℚ) * 100
    if discount ≥ minDiscountPercent then
      some
        { title := item.title
          description := item.description
          buyPrice := dealPrice
          buySource := item.source
          buyUrl := item.url
          sellPriceEstimate := regularPrice
          sellSource := "Amazon/eBay"
          sellUrl := ebaySoldUrl h item.title
          estimatedSpread := regularPrice - dealPrice
          spreadPercent := discount
          confidence := if discount > 70 then Confidence.high else Confidence.medium
          category := item.source
          raw := RawLead.deal item }
    else none
  | none =>
    let titlePrices := extractAllPrices item.title
    if titlePrices.length = 2 then
      let sorted := sortJS (fun a b => a ≤ b) titlePrices
      match sorted with
      | [dealPrice, regularPrice] =>
        if dealPrice < regularPrice ∧ 0 < dealPrice then
          let discount := ((regularPrice - dealPrice : ℤ) : ℚ) / (regularPrice : ℚ) * 100
          if discount ≥ minDiscountPercent then
            some
              { title := item.title
                description := item.description
                buyPrice := dealPrice
                buySource := item.source
                buyUrl := item.url
                sellPriceEstimate := regularPrice
                sellSource := "Amazon/eBay"
                sellUrl := ebaySoldUrl h item.title
                estimatedSpread := regularPrice - dealPrice
                spreadPercent := discount
                confidence := Confidence.medium
                category := item.source
                raw := RawLead.deal item }
          else none
        else none
      | _ => none
    else none

/-- `filter.ts` `filterDealFeedItems(items, minDiscountPercent)`. -/
def filterDealFeedItems (h : Helpers) (items : List DealFeedItem)
    (minDiscountPercent : ℚ := 50) : List QualifiedLead :=
  sortJS (fun a b => b.estimatedSpread ≤ a.estimatedSpread)
    (items.filterMap (qualifyDealItem h minDiscountPercent))

/-! ## Collectibles direct qualification (`filter.ts`:
`qualifyCollectiblesDirectly`)

Pure; called by the runner when the Tavily-based resale pass produced no
Discogs/StockX leads.  (This symbol lives in the repository's filter
module variant that also carries a `sellPriceType` field on
`QualifiedLead`; the computation below is that function's, on the
`QualifiedLead` shape of the cited filter interface, which lacks the
field.) -/

/-- `filter.ts` `qualifyCollectiblesDirectly(leads, minProfitCents)`. -/
def qualifyCollectiblesDirectly (h : Helpers) (leads : List ScoutLead)
    (minProfitCents : ℤ := 1000) : List QualifiedLead :=
  let qualified := leads.filterMap fun lead =>
    match lead.priceFound with
    | none => none
    | some buyPrice =>
      if buyPrice ≤ 0 then none else
      let branch : Option (ℤ × String × String × Confidence) :=
        if lead.source = "Discogs" then
          some (jsRound ((buyPrice : ℚ) * (3/2)), "eBay",
            "https://www.ebay.com/sch/i.html?_nkw="
              ++ h.encodeURIComponent (h.cleanTitleForSearch lead.title ++ " vinyl")
              ++ "&LH_Sold=1&LH_Complete=1",
            Confidence.medium)
        else if lead.source = "StockX" then
          let marketPrice : ℤ := match lead.marketAvg with
            | some m => if m = 0 then buyPrice else m
            | none => buyPrice
          if (marketPrice : ℚ) > (buyPrice : ℚ) * (6/5) then
            some (marketPrice, "StockX/GOAT", lead.url, Confidence.high)
          else none
        else
          some (jsRound ((buyPrice : ℚ) * (13/10)), "eBay",
            ebaySoldUrl h lead.title, Confidence.low)
      match branch with
      | none => none
      | some (sellEstimate, sellSource, sellUrl, confidence) =>
        let feeRate : ℚ := if sellSource = "StockX/GOAT" then 95/1000 else 1313/10000
        let fees := jsRound ((sellEstimate : ℚ) * feeRate)
        let shipping : ℤ := if sellSource = "StockX/GOAT" then 0 else 800
        let netSpread := sellEstimate - buyPrice - fees - shipping
        if netSpread < minProfitCents then none else
        some
          { title := lead.title
            description := lead.snippet ++ " — Buy on " ++ lead.source
              ++ " for a spread on " ++ sellSource ++ "."
            buyPrice := buyPrice
            buySource := lead.source
            buyUrl := lead.url
            sellPriceEstimate := sellEstimate
            sellSource := sellSource
            sellUrl := sellUrl
            estimatedSpread := netSpread
            spreadPercent := (netSpread : ℚ) / (buyPrice : ℚ) * 100
            confidence := confidence
            category := lead.category
            raw := RawLead.scout lead }
  sortJS (fun a b => b.estimatedSpread ≤ a.estimatedSpread) qualified

/-! ## Token budget ledger (`lib/budget.ts`)

The ledger file and the current UTC date are oracles: `stored` is the
parsed content of `token-usage.json` (`none` when the file is missing or
corrupt) and `today` is `new Date().toISOString().split('T')[0]`. -/

/-- `budget.ts` `BudgetConfig`. -/
structure BudgetConfig where
  dailyTokenLimit : ℤ
  perRunTokenLimit : ℤ
  perRunToolCallLimit : ℤ
  deriving DecidableEq, Repr

/-- `budget.ts` `DEFAULT_BUDGET`. -/
def DEFAULT_BUDGET : BudgetConfig :=
  { dailyTokenLimit := 500000, perRunTokenLimit := 50000,
    perRunToolCallLimit := 25 }

/-- `budget.ts` `RunUsageEntry`. -/
structure RunUsageEntry where
  agentType : String
  startedAt : String
  inputTokens : ℤ
  outputTokens : ℤ
  totalTokens : ℤ
  toolCalls : ℤ
  deriving DecidableEq, Repr

/-- `budget.ts` `TokenUsageEntry`. -/
structure TokenUsageEntry where
  date : String
  totalTokens : ℤ
  totalInputTokens : ℤ
  totalOutputTokens : ℤ
  runs : List RunUsageEntry
  deriving DecidableEq, Repr

/-- The fresh ledger for a day. -/
def freshUsage (today : String) : TokenUsageEntry :=
  { date := today, totalTokens := 0, totalInputTokens := 0,
    totalOutputTokens := 0, runs := [] }

/-- `budget.ts` `readUsage()`: the stored entry when its date is today,
otherwise (different stored date, missing or corrupt file) a zeroed entry
for today. -/
def readUsage (stored : Option TokenUsageEntry) (today : String) :
    TokenUsageEntry :=
  match stored with
  | some usage => if usage.date ≠ today then freshUsage today else usage
  | none => freshUsage today

/-- Result record of `checkBudget`. -/
structure BudgetCheck where
  allowed : Bool
  remaining : ℤ
  used : ℤ
  limit : ℤ
  runsToday : ℕ
  deriving DecidableEq, Repr

/-- `budget.ts` `checkBudget(config)`. -/
def checkBudget (config : BudgetConfig) (stored : Option TokenUsageEntry)
    (today : String) : BudgetCheck :=
  let usage := readUsage stored today
  { allowed := usage.totalTokens < config.dailyTokenLimit
    remaining := max 0 (config.dailyTokenLimit - usage.totalTokens)
    used := usage.totalTokens
    limit := config.dailyTokenLimit
    runsToday := usage.runs.length }

/-- `budget.ts` `recordUsage(agentType, inputTokens, outputTokens,
toolCalls)`: the ledger written back. -/
def recordUsage (stored : Option TokenUsageEntry) (today now : String)
    (agentType : String) (inputTokens outputTokens toolCalls : ℤ) :
    TokenUsageEntry :=
  let usage := readUsage stored today
  let totalTokens := inputTokens + outputTokens
  { usage with
    totalTokens := usage.totalTokens + totalTokens
    totalInputTokens := usage.totalInputTokens + inputTokens
    totalOutputTokens := usage.totalOutputTokens + outputTokens
    runs := usage.runs ++
      [{ agentType := agentType, startedAt := now,
         inputTokens := inputTokens, outputTokens := outputTokens,
         totalTokens := totalTokens, toolCalls := toolCalls }] }

/-- `budget.ts` `estimateCost(inputTokens, outputTokens)` (dollars). -/
def estimateCost (inputTokens outputTokens : ℤ) : ℚ :=
  (inputTokens : ℚ) / 1000000 * 3 + (outputTokens : ℚ) / 1000000 * 15

/-! ## Agent concurrency queue (`lib/agent-queue.ts`)

The queue is process-wide mutable state driven by two kinds of events:
an `enqueueAgentRun` call and the settlement of an active run's `execute`
promise (whose `finally` removes it from `activeRuns` and advances the
queue).  The state below carries, in addition to the source's
`activeRuns` map (as `runId × agentType` pairs in insertion order) and
FIFO `queue`, a counter for fresh queued-promise identities and the list
of queued promises rejected by eviction, which model the promise
machinery of the source. -/

/-- `agent-queue.ts` `MAX_CONCURRENT`. -/
def MAX_CONCURRENT : ℕ := 2

/-- A queued entry: its promise identity and agent type
(`agent-queue.ts` `QueuedRun`, with `execute`/`resolve`/`reject`
represented by the identity). -/
structure QueuedRun where
  qid : ℕ
  agentType : AgentType
  deriving DecidableEq, Repr

/-- The queue module's state. -/
structure QState where
  active : List (ℕ × AgentType)
  queue : List QueuedRun
  runIdCounter : ℕ
  qidCounter : ℕ
  rejected : List ℕ
  deriving DecidableEq, Repr

/-- The initial module state. -/
def qInit : QState :=
  { active := [], queue := [], runIdCounter := 0, qidCounter := 0,
    rejected := [] }

/-- `agent-queue.ts` `isAgentRunning(agentType)`. -/
def isAgentRunning (t : AgentType) (s : QState) : Bool :=
  s.active.any (fun e => e.2 = t)

/-- Result of `enqueueAgentRun`: the returned position (`-1` when the call
is rejected because the type is already running) and the new state. -/
structure EnqueueResult where
  position : ℤ
  state : QState
  deriving Repr

/-- `agent-queue.ts` `enqueueAgentRun(agentType, execute)`. -/
def enqueueAgentRun (t : AgentType) (s : QState) : EnqueueResult :=
  if isAgentRunning t s then { position := -1, state := s }
  else
    -- remove any existing queued run for this agent type (rejecting it)
    let s1 :=
      match s.queue.find? (fun q => q.agentType = t) with
      | some removed =>
        { s with
          queue := s.queue.eraseP (fun q => q.agentType = t)
          rejected := s.rejected ++ [removed.qid] }
      | none => s
    if s1.active.length < MAX_CONCURRENT then
      { position := 0
        state :=
          { s1 with
            runIdCounter := s1.runIdCounter + 1
            active := s1.active ++ [(s1.runIdCounter + 1, t)] } }
    else
      { position := (s1.queue.length : ℤ) + 1
        state :=
          { s1 with
            qidCounter := s1.qidCounter + 1
            queue := s1.queue ++ [⟨s1.qidCounter, t⟩] } }

/-- `agent-queue.ts` `processQueue()`: start queued runs while a slot is
free. -/
def processQueue (s : QState) : QState :=
  if s.active.length < MAX_CONCURRENT then
    match h : s.queue with
    | [] => s
    | next :: rest =>
      processQueue
        { s with
          queue := rest
          runIdCounter := s.runIdCounter + 1
          active := s.active ++ [(s.runIdCounter + 1, next.agentType)] }
  else s
termination_by s.queue.length
decreasing_by simp [h]

/-- Settlement of an active run (the `finally` handler of its `execute`
promise): remove it from `activeRuns` and advance the queue.  A `runId`
not in `activeRuns` is a no-op. -/
def finishRun (rid : ℕ) (s : QState) : QState :=
  if s.active.any (fun e => e.1 = rid) then
    processQueue { s with active := s.active.filter (fun e => e.1 ≠ rid) }
  else s

/-- The queue module's event alphabet. -/
inductive QEvent
  | enq (t : AgentType)
  | fin (rid : ℕ)
  deriving DecidableEq, Repr

/-- One event step. -/
def qStep (s : QState) : QEvent → QState
  | QEvent.enq t => (enqueueAgentRun t s).state
  | QEvent.fin rid => finishRun rid s

/-- The state after a sequence of events from the initial module state. -/
def runQueue (evs : List QEvent) : QState := evs.foldl qStep qInit

/-! ## JSON values and the opportunity parser (`runner.ts`:
`parseOpportunities`)

`JSON.parse` is a JS builtin; it is modelled by an oracle
`jsonParse : String → Option JValue` (`none` when `JSON.parse` throws).
Property access `o.k` on a parsed value returns the field for objects,
`undefined` for non-null primitives and arrays, and throws a `TypeError`
for `null` — the throw propagates to the `try` of `parseOpportunities`. -/

/-- A parsed JSON value. -/
inductive JValue
  | null
  | bool (b : Bool)
  | num (q : ℚ)
  | str (s : String)
  | arr (xs : List JValue)
  | obj (fields : List (String × JValue))
  deriving Repr

/-- JS truthiness of a property-access result (`undefined`, `null`,
`false`, `0`, `NaN` and `""` are falsy; objects and arrays are truthy). -/
def jTruthy : Option JValue → Bool
  | none => false
  | some JValue.null => false
  | some (JValue.bool b) => b
  | some (JValue.num q) => q ≠ 0
  | some (JValue.str s) => s ≠ ""
  | some (JValue.arr _) => true
  | some (JValue.obj _) => true

/-- `typeof o.k === 'number'` on a property-access result. -/
def jIsNumber : Option JValue → Bool
  | some (JValue.num _) => true
  | _ => false

/-- Property access `v.k`: `Except` error on `null` (a JS `TypeError`),
otherwise the field (`none` = `undefined`). -/
def jGet (v : JValue) (k : String) : Except Unit (Option JValue) :=
  match v with
  | JValue.null => Except.error ()
  | JValue.obj fields => Except.ok ((fields.find? (fun f => f.1 = k)).map (·.2))
  | _ => Except.ok none

/-- The element filter of `parseOpportunities`:
`o.title && typeof o.buyPrice === 'number' && typeof o.sellPrice ===
'number' && o.buySource && o.sellSource`.  JS `&&` short-circuits, but all
five accesses are on the same receiver, so the only throwing receiver is
`null`, detected at the first access. -/
def oppKeep (o : JValue) : Except Unit Bool := do
  let t ← jGet o "title"
  if ¬jTruthy t then return false
  let bp ← jGet o "buyPrice"
  if ¬jIsNumber bp then return false
  let sp ← jGet o "sellPrice"
  if ¬jIsNumber sp then return false
  let bs ← jGet o "buySource"
  if ¬jTruthy bs then return false
  let ss ← jGet o "sellSource"
  return jTruthy ss

/-- Replace a field in place, or append it (`{...o, k: v}`). -/
def objSet (fields : List (String × JValue)) (k : String) (v : JValue) :
    List (String × JValue) :=
  if fields.any (fun f => f.1 = k) then
    fields.map (fun f => if f.1 = k then (k, v) else f)
  else fields ++ [(k, v)]

/-- The element map of `parseOpportunities`:
`{...o, sellPriceType: o.sellPriceType || 'estimated'}`.  Only objects
reach this map (a non-object cannot have a truthy `title`); on the
unreachable non-object case the value is kept unchanged. -/
def oppDefault (o : JValue) : JValue :=
  match o with
  | JValue.obj fields =>
    let cur := (fields.find? (fun f => f.1 = "sellPriceType")).map (·.2)
    JValue.obj (objSet fields "sellPriceType"
      (if jTruthy cur then cur.getD JValue.null else JValue.str "estimated"))
  | v => v

/-- `filter`-then-`map` over the parsed array, with a thrown `TypeError`
propagating out (the source's `.filter(...).map(...)` inside `try`). -/
def oppElems : List JValue → Except Unit (List JValue)
  | [] => Except.ok []
  | o :: rest => do
    let keep ← oppKeep o
    let tail ← oppElems rest
    return if keep then oppDefault o :: tail else tail

/-- `lib/claude.ts` `ClaudeContentBlock` (the fields the runner reads). -/
structure ClaudeContentBlock where
  type : String
  text : Option String := none
  id : Option String := none
  deriving DecidableEq, Repr

/-- `lib/claude.ts` `ClaudeUsage`. -/
structure ClaudeUsage where
  input_tokens : ℤ
  output_tokens : ℤ
  deriving DecidableEq, Repr

/-- `lib/claude.ts` `ClaudeResponse` (the fields the runner reads). -/
structure ClaudeResponse where
  content : List ClaudeContentBlock
  stop_reason : String := "end_turn"
  usage : ClaudeUsage
  deriving DecidableEq, Repr

/-- The joined text of a response's text blocks
(`content.filter(b => b.type === 'text').map(b => b.text ?? '').join('\n')`). -/
def responseText (r : ClaudeResponse) : String :=
  String.intercalate "\n"
    ((r.content.filter (fun b => b.type = "text")).map
      (fun b => b.text.getD ""))

/-- Split a text at the first occurrence of a literal, returning the part
after it; scans left to right as a regex literal does. -/
def afterFirstLit (pat : List Char) : List Char → Option (List Char)
  | [] => (stripLit pat []).map id
  | c :: t =>
    match stripLit pat (c :: t) with
    | some r => some r
    | none => afterFirstLit pat t
where
  /-- Case-sensitive literal prefix match. -/
  stripLit : List Char → List Char → Option (List Char)
    | [], rest => some rest
    | p :: ps, c :: t => if c = p then stripLit ps t else none
    | _ :: _, [] => none

/-- Take the characters of `cs` before the first occurrence of the
literal `pat`; `none` when `pat` does not occur. -/
def beforeFirstLit (pat : List Char) : List Char → Option (List Char)
  | [] => match afterFirstLit.stripLit pat [] with
    | some _ => some []
    | none => none
  | c :: t =>
    match afterFirstLit.stripLit pat (c :: t) with
    | some _ => some []
    | none => (beforeFirstLit pat t).map (fun l => c :: l)

/-- The block regex
`/<opportunities>\s*([\s\S]*?)\s*<\/opportunities>/` of
`parseOpportunities`: the capture is the text between the first
`<opportunities>` and the first `</opportunities>` after it, trimmed of
leading and trailing whitespace (the greedy `\s*`s around the lazy
group). -/
def extractOppBlock (s : String) : Option String := do
  let afterOpen ← afterFirstLit "<opportunities>".toList s.toList
  let inner ← beforeFirstLit "</opportunities>".toList afterOpen
  let trimmed := (inner.dropWhile isJsWs).reverse.dropWhile isJsWs |>.reverse
  return String.mk trimmed

/-- `runner.ts` `parseOpportunities(response)` (given the `JSON.parse`
oracle): `[]` when the block is missing, when `JSON.parse` throws, when
the parsed value is not an array, or when a `TypeError` escapes the
element pass; otherwise the kept elements with `sellPriceType`
defaulted. -/
def parseOpportunities (jsonParse : String → Option JValue)
    (response : ClaudeResponse) : List JValue :=
  match extractOppBlock (responseText response) with
  | none => []
  | some inner =>
    match jsonParse inner with
    | none => []
    | some parsed =>
      match parsed with
      | JValue.arr xs =>
        match oppElems xs with
        | Except.ok os => os
        | Except.error _ => []
      | _ => []

/-- `runner.ts` `extractReasoning(response)`. -/
def extractReasoning (r : ClaudeResponse) : String := responseText r

/-! ## The snipe tool-use loop (`runner.ts`, lines 1063–1131)

One `callClaude` call consumes the next response of an oracle stream; an
exhausted stream models a throwing `callClaude` (network or API error),
which the runner's outer `catch` turns into an error result carrying the
tokens accumulated so far.  Executing a tool (`searchSoldPrices`) is a
network call whose result text is appended to the conversation and never
read again by the runner, so it needs no oracle. -/

/-- `runner.ts` `maxToolCalls`. -/
def maxToolCalls : ℕ := 5

/-- Tokens accumulated when `callClaude` throws mid-loop. -/
structure LoopThrow where
  inTok : ℤ
  outTok : ℤ
  llmCalls : ℕ
  deriving DecidableEq, Repr

/-- Outcome of the tool-use loop. -/
structure LoopDone where
  finalResponse : Option ClaudeResponse
  toolCallsUsed : ℕ
  inTok : ℤ
  outTok : ℤ
  llmCalls : ℕ
  deriving DecidableEq, Repr

/-- The `for (let loop = 0; loop < maxToolCalls + 1; loop++)` tool-use
loop: call the model, add its tokens, and stop with it as the final
response when it contains no `tool_use` block or `toolCallsUsed` has
reached the cap; otherwise execute every `tool_use` block (incrementing
`toolCallsUsed` once per block) and iterate. -/
def snipeLoop (stream : List ClaudeResponse) (fuel : ℕ) (toolCallsUsed : ℕ)
    (inTok outTok : ℤ) (llmCalls : ℕ) : Except LoopThrow LoopDone :=
  match fuel with
  | 0 => Except.ok
      { finalResponse := none, toolCallsUsed := toolCallsUsed,
        inTok := inTok, outTok := outTok, llmCalls := llmCalls }
  | n + 1 =>
    match stream with
    | [] => Except.error
        { inTok := inTok, outTok := outTok, llmCalls := llmCalls }
    | r :: rest =>
      let inTok := inTok + r.usage.input_tokens
      let outTok := outTok + r.usage.output_tokens
      let llmCalls := llmCalls + 1
      let toolUseBlocks := r.content.filter (fun b => b.type = "tool_use")
      if toolUseBlocks.isEmpty ∨ toolCallsUsed ≥ maxToolCalls then
        Except.ok
          { finalResponse := some r, toolCallsUsed := toolCallsUsed,
            inTok := inTok, outTok := outTok, llmCalls := llmCalls }
      else
        snipeLoop rest n (toolCallsUsed + toolUseBlocks.length)
          inTok outTok llmCalls

/-- The loop as entered by the runner. -/
def runSnipeLoop (stream : List ClaudeResponse) : Except LoopThrow LoopDone :=
  snipeLoop stream (maxToolCalls + 1) 0 0 0 0

/-! ## Per-agent scout configuration (`runner.ts`: `getScoutConfig`)

`userConfig` is a dynamic record probed with `as` casts and `||`
defaults; the fields the source reads are modelled as options.  The
`snipeSystemPrompt` field (a large prompt string that flows only into the
LLM request payload, which the response oracle abstracts) is omitted from
the embedded record. -/

/-- JS `(x as string) || default`. -/
def jsOrStr (o : Option String) (d : String) : String :=
  match o with
  | some s => if s = "" then d else s
  | none => d

/-- JS `(x as number) || default` for integers. -/
def jsOrInt (o : Option ℤ) (d : ℤ) : ℤ :=
  match o with
  | some v => if v = 0 then d else v
  | none => d

/-- JS `(x as number) || default` for rationals. -/
def jsOrRat (o : Option ℚ) (d : ℚ) : ℚ :=
  match o with
  | some v => if v = 0 then d else v
  | none => d

/-- The fields of the runner's `userConfig` record that
`getScoutConfig` probes. -/
structure UserConfig where
  categories : Option (List String) := none
  region : Option String := none
  minProfitCents : Option ℤ := none
  minSpreadPercent : Option ℚ := none
  pairs : Option (List String) := none
  eventTypes : Option (List String) := none

/-- `sources.ts` `CraigslistConfig`. -/
structure CraigslistConfig where
  cities : List String
  categories : List String
  queries : List String
  maxItemsPerFeed : Option ℕ := none
  deriving DecidableEq, Repr

/-- `runner.ts` `AgentScoutConfig` (without `snipeSystemPrompt`). -/
structure AgentScoutConfig where
  searchQueries : List String
  useEbaySearch : Bool
  useDealFeeds : Bool
  useCryptoAPIs : Bool
  useCraigslistRSS : Bool
  useGovAuctions : Bool
  useCollectiblesAPIs : Bool
  useOpenLibrary : Bool
  craigslistConfig : Option CraigslistConfig := none
  cryptoPairs : Option (List String) := none
  minProfitCents : ℤ
  minSpreadPercent : ℚ

/-- `region.toLowerCase().replace(/\s+/g, '')`. -/
def lowerNoWs (s : String) : String :=
  String.mk ((s.toList.filter (fun c => ¬isJsWs c)).map Char.toLower)

/-- `runner.ts` `getScoutConfig(agentType, userConfig)`. -/
def getScoutConfig (agentType : AgentType) (uc : UserConfig) :
    AgentScoutConfig :=
  let categories := uc.categories.getD []
  let region := jsOrStr uc.region "US"
  match agentType with
  | AgentType.listings =>
    { searchQueries :=
        if categories.length > 0 then
          categories.flatMap fun cat =>
            ["site:offerup.com/item " ++ cat ++ " for sale",
             "site:mercari.com/item " ++ cat]
        else
          ["site:offerup.com/item/ macbook pro",
           "site:offerup.com/item/ iphone 15",
           "site:mercari.com/item/ herman miller aeron",
           "site:mercari.com/item/ dyson vacuum",
           "site:offerup.com/item/ milwaukee tools",
           "site:offerup.com/item/ nintendo switch"]
      useEbaySearch := false, useDealFeeds := false, useCryptoAPIs := false
      useCraigslistRSS := true, useGovAuctions := false
      useCollectiblesAPIs := false, useOpenLibrary := false
      craigslistConfig := some
        { cities := if region ≠ "" then [lowerNoWs region] else []
          categories :=
            if categories.length > 0 then categories
            else ["electronics", "furniture", "tools", "musical"]
          queries := if categories.length > 0 then categories else [] }
      minProfitCents := jsOrInt uc.minProfitCents 1000
      minSpreadPercent := 15 }
  | AgentType.auctions =>
    { searchQueries :=
        (categories.flatMap fun cat =>
          ["site:ebay.com/itm " ++ cat ++ " auction",
           "site:estatesales.net " ++ cat ++ " lot",
           "site:hibid.com " ++ cat ++ " lot"]) ++
        (if categories.length = 0 then
          ["site:ebay.com/itm vintage electronics auction",
           "site:ebay.com/itm camera lens auction",
           "site:ebay.com/itm vintage watch lot",
           "site:ebay.com/itm audio equipment lot",
           "site:ebay.com/itm power tools lot auction",
           "site:ebay.com/itm musical instrument auction",
           "site:estatesales.net electronics lot sale",
           "site:estatesales.net tools equipment",
           "site:hibid.com electronics lot",
           "site:hibid.com equipment tools lot",
           "site:maxsold.com electronics auction",
           "site:auctionninja.com lot auction"]
        else [])
      useEbaySearch := true, useDealFeeds := false, useCryptoAPIs := false
      useCraigslistRSS := false, useGovAuctions := true
      useCollectiblesAPIs := false, useOpenLibrary := false
      minProfitCents := jsOrInt uc.minProfitCents 1000
      minSpreadPercent := 15 }
  | AgentType.crypto =>
    { searchQueries := []
      useEbaySearch := false, useDealFeeds := false, useCryptoAPIs := true
      useCraigslistRSS := false, useGovAuctions := false
      useCollectiblesAPIs := false, useOpenLibrary := false
      cryptoPairs := some (match uc.pairs with
        | some l => l
        | none =>
          ["BTC/USD", "ETH/USD", "SOL/USD", "XRP/USD",
           "DOGE/USD", "ADA/USD", "AVAX/USD", "DOT/USD",
           "LINK/USD", "UNI/USD", "ATOM/USD", "NEAR/USD",
           "FIL/USD", "APT/USD", "ARB/USD", "OP/USD",
           "LTC/USD", "BCH/USD", "ETC/USD", "ALGO/USD",
           "BTC/USDT", "ETH/USDT"])
      minProfitCents := 0
      minSpreadPercent := jsOrRat uc.minSpreadPercent (15/100) }
  | AgentType.retail =>
    { searchQueries :=
        (categories.flatMap fun cat =>
          ["site:brickseek.com/walmart-clearance-checker " ++ cat,
           "site:brickseek.com/target-clearance-checker " ++ cat,
           "\"clearance\" \"" ++ cat ++ "\" \"$\" \"was $\" OR \"reg $\" OR \"% off\""]) ++
        (if categories.length = 0 then
          ["site:brickseek.com/walmart-clearance-checker",
           "site:brickseek.com/target-clearance-checker",
           "\"dyson\" \"clearance\" \"$\" site:target.com/p OR site:walmart.com/ip",
           "\"ninja\" OR \"instant pot\" \"clearance\" \"$\" site:target.com/p OR site:walmart.com/ip",
           "\"lego\" \"clearance\" \"$\" site:target.com/p OR site:walmart.com/ip",
           "\"airpods\" \"open box\" OR \"clearance\" \"$\" site:bestbuy.com",
           "\"kitchenaid\" \"clearance\" \"$\" site:target.com/p OR site:walmart.com/ip",
           "\"nintendo switch\" \"clearance\" OR \"open box\" \"$\" site:bestbuy.com",
           "site:slickdeals.net \"clearance\" \"$\" \"was $\" this week",
           "site:dealnews.com clearance \"70% off\" OR \"80% off\" \"$\"",
           "site:amazon.com/dp \"renewed\" OR \"open box\" \"was $\"",
           "amazon warehouse deals electronics open box price",
           "\"roomba\" \"clearance\" OR \"refurbished\" \"$\" site:amazon.com OR site:walmart.com",
           "\"sonos\" \"open box\" OR \"refurbished\" \"$\" site:bestbuy.com",
           "\"vitamix\" \"clearance\" OR \"refurbished\" \"$\""]
        else [])
      useEbaySearch := false, useDealFeeds := true, useCryptoAPIs := false
      useCraigslistRSS := false, useGovAuctions := false
      useCollectiblesAPIs := false, useOpenLibrary := false
      minProfitCents := jsOrInt uc.minProfitCents 1000
      minSpreadPercent := 20 }
  | AgentType.tickets =>
    { searchQueries :=
        ["sold out concert tickets 2025 face value available",
         "ticketmaster presale code concert this week",
         "stubhub cheapest tickets popular concert",
         "seatgeek best deals concert tickets",
         "vividseats cheap tickets sold out show",
         "nba playoff tickets face value 2025",
         "nfl tickets below face value",
         "mlb tickets cheap deals this week",
         "premier league tickets resale price",
         "champions league tickets for sale",
         "march madness tickets face value",
         "taylor swift eras tour tickets resale price",
         "beyonce concert tickets for sale",
         "coachella tickets face value below resale",
         "lollapalooza festival tickets cheap",
         "sold out concert tickets available primary",
         "tickets face value vs stubhub resale price",
         "concert tickets resale profit 2025",
         "underpriced tickets secondary market",
         "event tickets below market value"] ++
        ((uc.eventTypes.getD []).flatMap fun t =>
          [t ++ " tickets for sale this month",
           t ++ " tickets face value below resale",
           t ++ " tickets cheap deal 2025"])
      useEbaySearch := false, useDealFeeds := false, useCryptoAPIs := false
      useCraigslistRSS := false, useGovAuctions := false
      useCollectiblesAPIs := false, useOpenLibrary := false
      minProfitCents := jsOrInt uc.minProfitCents 1500
      minSpreadPercent := 15 }
  | AgentType.collectibles =>
    { searchQueries :=
        (categories.flatMap fun cat =>
          ["site:ebay.com/itm " ++ cat ++ " buy it now",
           "site:mercari.com/item " ++ cat]) ++
        (if categories.length = 0 then
          ["site:ebay.com/itm jordan retro buy it now",
           "site:mercari.com/item/ jordan sneakers",
           "site:mercari.com/item/ yeezy",
           "site:ebay.com/itm pokemon booster box",
           "site:mercari.com/item/ pokemon cards lot",
           "site:tcgplayer.com/product pokemon",
           "site:ebay.com/itm vinyl record first pressing",
           "site:mercari.com/item/ vinyl records lot",
           "site:ebay.com/itm lego retired set sealed",
           "site:mercari.com/item/ lego set",
           "site:ebay.com/itm funko pop exclusive",
           "site:mercari.com/item/ hot wheels"]
        else [])
      useEbaySearch := true, useDealFeeds := false, useCryptoAPIs := false
      useCraigslistRSS := false, useGovAuctions := false
      useCollectiblesAPIs := true, useOpenLibrary := false
      minProfitCents := jsOrInt uc.minProfitCents 1000
      minSpreadPercent := 15 }
  | AgentType.books =>
    { searchQueries :=
        (categories.flatMap fun cat =>
          [cat ++ " used books cheap lot for sale",
           cat ++ " amazon fba profitable books",
           "site:ebay.com " ++ cat ++ " book lot"]) ++
        (if categories.length = 0 then
          ["used textbooks for sale cheap lot",
           "college textbook lot for sale",
           "medical textbook used for sale cheap",
           "engineering textbook used cheap",
           "site:ebay.com textbook lot",
           "out of print books for sale",
           "rare first edition book for sale",
           "signed book for sale cheap",
           "vintage book lot for sale",
           "thrift store book haul valuable finds",
           "library book sale this week",
           "used books lot for sale cheap bulk",
           "estate sale books lot",
           "technical programming book used for sale",
           "art book coffee table for sale cheap",
           "vintage cookbook for sale lot",
           "children book lot for sale",
           "site:ebay.com book lot buy it now",
           "amazon fba book arbitrage finds"]
        else [])
      useEbaySearch := true, useDealFeeds := false, useCryptoAPIs := false
      useCraigslistRSS := false, useGovAuctions := false
      useCollectiblesAPIs := false, useOpenLibrary := true
      minProfitCents := jsOrInt uc.minProfitCents 500
      minSpreadPercent := 20 }

/-! ## Crypto opportunity construction (`runner.ts`:
`buildCryptoOpportunities`) -/

/-- ECMAScript `Number.prototype.toFixed(d)` on the small in-range values
formatted by the runner: sign split, then round half up at `d` decimal
places. -/
def jsToFixed (q : ℚ) (d : ℕ) : String :=
  let sign := if q < 0 then "-" else ""
  let n := (jsRound (|q| * ((10 : ℚ) ^ d))).toNat
  if d = 0 then sign ++ toString n
  else
    let ip := n / 10 ^ d
    let fp := n % 10 ^ d
    let fs := toString fp
    sign ++ toString ip ++ "."
      ++ String.mk (List.replicate (d - fs.length) '0') ++ fs

/-- `ParsedOpportunity.fees` (`agents/base-agent.ts`).  Modelled from the
spec: the `base-agent.ts` module is not among the provided sources; the
field list follows the specification's data model and the object literals
built by the runner. -/
structure Fees where
  platformFee : Option ℤ := none
  shippingCost : Option ℤ := none
  paymentProcessing : Option ℤ := none
  other : Option ℤ := none
  total : ℤ
  deriving DecidableEq, Repr

/-- `agents/base-agent.ts` `ParsedOpportunity`.  Modelled from the spec
(see `Fees`): `{title, description, buyPrice, buySource, buyUrl,
sellPrice, sellSource, sellUrl, sellPriceType, estimatedProfit, fees,
confidence, riskNotes, reasoning}`, all money fields in integer cents. -/
structure ParsedOpportunity where
  title : String
  description : String
  buyPrice : ℤ
  buySource : String
  buyUrl : String
  sellPrice : ℤ
  sellSource : String
  sellUrl : String
  sellPriceType : String
  estimatedProfit : ℤ
  fees : Fees
  confidence : ℤ
  riskNotes : List String
  reasoning : String
  deriving DecidableEq, Repr

/-- `runner.ts` `buildCryptoOpportunities(spreads)`. -/
def buildCryptoOpportunities (spreads : List CryptoSpread) :
    List ParsedOpportunity :=
  spreads.map fun spread =>
    let buyPriceCents := jsRound (spread.buyPrice * 100)
    let sellPriceCents := jsRound (spread.sellPrice * 100)
    let buyFee := jsRound ((buyPriceCents : ℚ) * (1/1000))
    let sellFee := jsRound ((sellPriceCents : ℚ) * (1/1000))
    let withdrawalFee : ℤ := 500
    let totalFees := buyFee + sellFee + withdrawalFee
    let profit := sellPriceCents - buyPriceCents - totalFees
    { title := spread.pair ++ " Spread: " ++ spread.buyExchange ++ " → "
        ++ spread.sellExchange
      description := spread.pair ++ " is trading at $"
        ++ jsToFixed spread.buyPrice 2 ++ " on " ++ spread.buyExchange
        ++ " and $" ++ jsToFixed spread.sellPrice 2 ++ " on "
        ++ spread.sellExchange ++ ". Spread: "
        ++ jsToFixed spread.spreadPercent 3 ++ "%."
      buyPrice := buyPriceCents
      buySource := spread.buyExchange
      buyUrl := spread.buyUrl
      sellPrice := sellPriceCents
      sellSource := spread.sellExchange
      sellUrl := spread.sellUrl
      sellPriceType := "verified"
      estimatedProfit := max 0 profit
      fees :=
        { platformFee := some (buyFee + sellFee)
          other := some withdrawalFee
          total := totalFees }
      confidence :=
        if spread.spreadPercent > (1 : ℚ) then (85 : ℤ)
        else if spread.spreadPercent > (1/2 : ℚ) then 70
        else 55
      riskNotes :=
        ["Spread may close during transfer time",
         "Transfer time depends on network congestion",
         "Price is a snapshot — may change by the time you trade"]
      reasoning := "Live API data: " ++ spread.buyExchange ++ " price $"
        ++ jsToFixed spread.buyPrice 2 ++ " vs " ++ spread.sellExchange
        ++ " price $" ++ jsToFixed spread.sellPrice 2 ++ ". Raw spread "
        ++ jsToFixed spread.spreadPercent 3 ++ "%." }

/-! ## The scout-then-snipe runner (`runner.ts`: `runScoutThenSnipe`)

Every network call and file read of the run is an oracle field of `Env`;
the pure computation between them is embedded directly.  Omitted effects
(which return no value read by the run): `onProgress` events,
`console.log`, the 3-minute `setTimeout`/`clearTimeout` (it only emits an
event, cooperative cancellation only), `recordUsage` ledger writes, and
the inter-request `setTimeout` delays.  The run's LLM-call count is
returned alongside the result as an effect trace. -/

/-- The oracle environment of one run: the values its network calls and
file reads return. -/
structure Env where
  /-- `fetchCryptoPrices(pairs)`. -/
  cryptoPrices : List CryptoPrice
  /-- `fetchCraigslistRSS(config)`. -/
  craigslist : SourceResult ScoutLead
  /-- `tavilyBatchSearch(fallbackQueries, …)` (Craigslist fallback). -/
  craigslistFallback : List ScoutLead
  /-- `fetchGovAuctions(…)`. -/
  gov : SourceResult ScoutLead
  /-- `fetchDiscogsListings()`. -/
  discogs : SourceResult ScoutLead
  /-- `fetchSneakerPrices()`. -/
  sneakers : SourceResult ScoutLead
  /-- `fetchOpenLibraryBooks()`. -/
  books : SourceResult BookLead
  /-- `fetchDealFeeds()`. -/
  dealFeeds : SourceResult DealFeedItem
  /-- `tavilyBatchSearch(queries, …)`. -/
  tavilyLeads : List ScoutLead
  /-- `searchEbayListings(ebayQueries, …)`. -/
  ebayLeads : List ScoutLead
  /-- `batchResaleLookup(leadsWithPrices, …)` (first pass). -/
  resale1 : String → Option ResalePriceInfo
  /-- The direct price lookup of the no-price listing-URL pass:
  `data.answer ? extractPrice(data.answer) : null`, `none` when the
  request failed or found no price. -/
  priceLookup : ScoutLead → Option ℤ
  /-- `batchResaleLookup(…)` (second pass, after the direct lookups). -/
  resale2 : String → Option ResalePriceInfo
  /-- `batchBookResaleLookup(bookLeads, …)`. -/
  bookQualified : List QualifiedLead
  /-- The stored `token-usage.json` (`none`: missing or corrupt). -/
  usage : Option TokenUsageEntry
  /-- Today's UTC date string. -/
  today : String
  /-- `loadBudgetConfig()`. -/
  budgetConfig : BudgetConfig
  /-- The response stream consumed by `callClaude`; an exhausted stream
  models a throwing call. -/
  claudeResponses : List ClaudeResponse
  /-- `JSON.parse` (`none` = throws). -/
  jsonParse : String → Option JValue

/-- A JS `Set` built from a list: deduplicate preserving first-seen
order. -/
def jsSetDedup [DecidableEq α] (l : List α) : List α :=
  l.foldl (fun acc x => if x ∈ acc then acc else acc ++ [x]) []

/-- `q.includes(lit)`. -/
def containsLit (lit : String) (s : String) : Bool :=
  (afterFirstLit lit.toList s.toList).isSome

/-- `String.prototype.trim()` (over the embedded whitespace class). -/
def jsTrim (s : String) : String :=
  String.mk ((s.toList.dropWhile isJsWs).reverse.dropWhile isJsWs).reverse

/-- `q.replace(/site:\S+/g, '')`: drop every occurrence of `site:`
followed by a non-empty run of non-whitespace. -/
def stripSiteAux : ℕ → List Char → List Char
  | 0, _ => []
  | _ + 1, [] => []
  | n + 1, c :: t =>
    match afterFirstLit.stripLit ['s', 'i', 't', 'e', ':'] (c :: t) with
    | some r =>
      let run := r.takeWhile (fun ch => ¬isJsWs ch)
      if run.isEmpty then c :: stripSiteAux n t
      else stripSiteAux n (r.drop run.length)
    | none => c :: stripSiteAux n t

/-- See `stripSiteAux`. -/
def stripSite (s : String) : String :=
  String.mk (stripSiteAux s.toList.length s.toList)

/-- The aggregates the scout phase hands to the rest of the run. -/
structure ScoutData where
  dealLeads : List QualifiedLead
  qualifiedLeads : List QualifiedLead
  bookQualifiedLeads : List QualifiedLead
  collectiblesDirectLeads : List QualifiedLead
  allQualified : List QualifiedLead
  allLeadsCount : ℕ
  bookLeadsCount : ℕ
  totalLeads : ℕ
  sourcesChecked : List String
  diagnostics : List SourceDiagnostic

/-- Phase 1 of `runScoutThenSnipe` for non-crypto agent types
(`runner.ts` lines 606–924): gather leads per enabled source, filter deal
feeds, qualify priced leads against the resale lookups, run the
no-price listing-URL fallback pass, and merge all qualified leads. -/
def scoutPhase (h : Helpers) (cfg : AgentScoutConfig) (env : Env) :
    ScoutData :=
  -- 1b. Craigslist RSS (with Tavily fallback when fewer than 5 results)
  let clOn := cfg.useCraigslistRSS ∧ cfg.craigslistConfig.isSome
  let craigslistLeads :=
    if clOn then
      if env.craigslist.leads.length < 5 then
        env.craigslist.leads ++ env.craigslistFallback
      else env.craigslist.leads
    else []
  let clSources :=
    match cfg.craigslistConfig with
    | some cc =>
      if cfg.useCraigslistRSS then
        let citiesChecked :=
          if cc.cities.length > 0 then cc.cities.length else 5
        ["Craigslist RSS (" ++ toString citiesChecked ++ " cities)"]
      else []
    | none => []
  -- 1c. Government auctions
  let govLeads := if cfg.useGovAuctions then env.gov.leads else []
  -- 1d. Collectibles APIs
  let collectiblesLeads :=
    if cfg.useCollectiblesAPIs then env.discogs.leads ++ env.sneakers.leads
    else []
  -- 1e. Open Library
  let bookLeads := if cfg.useOpenLibrary then env.books.leads else []
  -- 1f. Deal feeds
  let dealLeads :=
    if cfg.useDealFeeds then filterDealFeedItems h env.dealFeeds.leads 25
    else []
  -- 1g. Tavily batch search
  let scoutLeads :=
    if cfg.searchQueries.length > 0 then env.tavilyLeads else []
  -- 1h. eBay-specific search
  let ebayQueries :=
    if cfg.useEbaySearch then
      ((cfg.searchQueries.filter
        (fun q => ¬containsLit "site:ebay.com" q)).take 10).map
        (fun q => jsTrim (stripSite q))
    else []
  let ebayLeads :=
    if cfg.useEbaySearch ∧ ebayQueries.length > 0 then env.ebayLeads else []
  -- combine
  let allLeads :=
    craigslistLeads ++ govLeads ++ collectiblesLeads ++ scoutLeads ++ ebayLeads
  let hasPrice : ScoutLead → Bool := fun l =>
    match l.priceFound with
    | some p => decide (0 < p)
    | none => false
  let leadsWithPrices := allLeads.filter (fun l => hasPrice l)
  let leadsWithoutPrices := allLeads.filter (fun l => ¬hasPrice l)
  -- 1i. resale lookup + qualification
  let qualifiedLeads0 : List QualifiedLead :=
    if leadsWithPrices.length > 0 then
      filterLeadsWithPriceData h allLeads env.resale1
        cfg.minProfitCents cfg.minSpreadPercent
    else []
  -- 1i-b. direct price lookup for listing URLs without prices
  let fallbackOn : Bool :=
    decide (leadsWithoutPrices.length > 0 ∧ qualifiedLeads0.length < 10)
  let listingUrlLeads : List ScoutLead :=
    if fallbackOn then
      (leadsWithoutPrices.filter (fun l => h.isListingUrl l.url)).take 8
    else []
  let lookedUp : ScoutLead → Option ℤ := fun l =>
    if l ∈ listingUrlLeads then
      match env.priceLookup l with
      | some p => if 0 < p then some p else none
      | none => none
    else none
  let allLeads1 : List ScoutLead := allLeads.map fun l =>
    match lookedUp l with
    | some p => { l with priceFound := some p }
    | none => l
  let leadsWithPrices1 : List ScoutLead :=
    leadsWithPrices ++ listingUrlLeads.filterMap (fun l =>
      (lookedUp l).map fun p => { l with priceFound := some p })
  let qualifiedLeads :=
    if fallbackOn && decide (listingUrlLeads.length > 0)
        && decide (leadsWithPrices1.length > 0) then
      let newQualified :=
        filterLeadsWithPriceData h (allLeads1.filter (fun l => hasPrice l))
          env.resale2 cfg.minProfitCents cfg.minSpreadPercent
      let existingUrls := qualifiedLeads0.map (·.buyUrl)
      qualifiedLeads0 ++
        newQualified.filter (fun q => ¬(q.buyUrl ∈ existingUrls))
    else qualifiedLeads0
  -- 1j. book resale lookups
  let bookQualifiedLeads :=
    if bookLeads.length > 0 then env.bookQualified else []
  -- 1k. collectibles direct qualification
  let collectiblesDirectLeads :=
    if cfg.useCollectiblesAPIs ∧ collectiblesLeads.length > 0
        ∧ (qualifiedLeads.filter
            (fun q => q.buySource = "Discogs" ∨ q.buySource = "StockX")).length
          = 0 then
      qualifyCollectiblesDirectly h collectiblesLeads cfg.minProfitCents
    else []
  -- merge
  let allQualified :=
    (qualifiedLeads ++ dealLeads ++ bookQualifiedLeads
      ++ collectiblesDirectLeads).take 25
  let totalLeads := allLeads.length
    + (if dealLeads.length > 0 then dealLeads.length else 0)
    + bookLeads.length
  { dealLeads := dealLeads
    qualifiedLeads := qualifiedLeads
    bookQualifiedLeads := bookQualifiedLeads
    collectiblesDirectLeads := collectiblesDirectLeads
    allQualified := allQualified
    allLeadsCount := allLeads.length
    bookLeadsCount := bookLeads.length
    totalLeads := totalLeads
    sourcesChecked :=
      (if clOn then clSources else []) ++
      (if cfg.useGovAuctions then
        ["GovDeals", "PublicSurplus", "GSA Auctions"] else []) ++
      (if cfg.useCollectiblesAPIs then
        ["Discogs API", "kicks.dev/StockX"] else []) ++
      (if cfg.useOpenLibrary then ["Open Library"] else []) ++
      (if cfg.useDealFeeds then
        ["Slickdeals", "DealNews", "r/deals", "r/flipping", "r/buildapcsales"]
        else []) ++
      (if cfg.searchQueries.length > 0 then ["Tavily Search"] else []) ++
      (if cfg.useEbaySearch ∧ ebayQueries.length > 0 then ["eBay"] else [])
    diagnostics :=
      (if clOn then env.craigslist.diagnostics else []) ++
      (if cfg.useGovAuctions then env.gov.diagnostics else []) ++
      (if cfg.useCollectiblesAPIs then
        env.discogs.diagnostics ++ env.sneakers.diagnostics else []) ++
      (if cfg.useOpenLibrary then env.books.diagnostics else []) ++
      (if cfg.useDealFeeds then env.dealFeeds.diagnostics else []) }

/-- An element of the run's `opportunities` array: a record built by
`buildCryptoOpportunities` or a JSON object parsed from the model's
output (both typed `ParsedOpportunity[]` by the source via a cast). -/
inductive Opportunity
  | typed (o : ParsedOpportunity)
  | dyn (j : JValue)

/-- `runner.ts` `ScoutSnipeResult.scoutStats`. -/
structure ScoutStats where
  leadsFound : ℕ
  leadsQualified : ℕ
  sourcesChecked : List String
  diagnostics : Option (List SourceDiagnostic) := none

/-- `runner.ts` `ScoutSnipeResult`. -/
structure ScoutSnipeResult where
  success : Bool
  opportunities : List Opportunity
  reasoning : String
  totalInputTokens : ℤ
  totalOutputTokens : ℤ
  totalToolCalls : ℕ
  estimatedCost : ℚ
  scoutStats : ScoutStats
  error : Option String := none
  abortReason : Option String := none

/-- The non-success diagnostic summary of the zero-qualified branch. -/
def diagSummary (diags : List SourceDiagnostic) : String :=
  String.intercalate "; "
    ((diags.filter (fun d => d.status ≠ "success")).map fun d =>
      d.source ++ ": " ++ d.status ++
        (match d.error with
         | some e => " (" ++ e ++ ")"
         | none => ""))

/-- `runner.ts` `runScoutThenSnipe(config, userConfig, onProgress)`.
Returns the result together with the number of `callClaude` calls the run
performed. -/
def runScoutThenSnipe (h : Helpers) (agentType : AgentType)
    (uc : UserConfig) (env : Env) : ScoutSnipeResult × ℕ :=
  let cfg := getScoutConfig agentType uc
  -- 1a. crypto short-circuit
  match cfg.useCryptoAPIs, cfg.cryptoPairs with
  | true, some pairs =>
    let sourcesChecked := ["Binance API", "Coinbase API", "Kraken API"]
    let spreads := findCryptoSpreads env.cryptoPrices cfg.minSpreadPercent
    if spreads.length > 0 then
      let opportunities := buildCryptoOpportunities spreads
      (⟨true, opportunities.map Opportunity.typed,
        "Found " ++ toString spreads.length
          ++ " cross-exchange spreads by comparing live prices from "
          ++ String.intercalate ", "
              (jsSetDedup (env.cryptoPrices.map (·.exchange))) ++ ".",
        0, 0, 0, 0,
        ⟨env.cryptoPrices.length, spreads.length, sourcesChecked, some []⟩,
        none, none⟩, 0)
    else
      (⟨true, [],
        "Checked " ++ toString pairs.length
          ++ " pairs across 3 exchanges. No spreads exceeding "
          ++ toString cfg.minSpreadPercent ++ "% found at this time.",
        0, 0, 0, 0,
        ⟨env.cryptoPrices.length, 0, sourcesChecked, some []⟩,
        none, none⟩, 0)
  | _, _ =>
    let sp := scoutPhase h cfg env
    if sp.allQualified.length = 0 then
      let ds := diagSummary sp.diagnostics
      (⟨true, [],
        "Scouted " ++ toString sp.totalLeads ++ " leads across "
          ++ String.intercalate ", " sp.sourcesChecked
          ++ ". No leads passed the minimum profit threshold of $"
          ++ jsToFixed ((cfg.minProfitCents : ℚ) / 100) 0 ++ "."
          ++ (if ds ≠ "" then " Source issues: " ++ ds else ""),
        0, 0, 0, 0,
        ⟨sp.totalLeads, 0, sp.sourcesChecked, some sp.diagnostics⟩,
        none, none⟩, 0)
    else
      -- PHASE 2: SNIPE — budget gate, then the tool-use loop
      let budget := checkBudget env.budgetConfig env.usage env.today
      if ¬budget.allowed then
        (⟨false, [], "", 0, 0, 0, 0,
          ⟨sp.totalLeads, sp.allQualified.length, sp.sourcesChecked, none⟩,
          none, some "Daily token limit reached."⟩, 0)
      else
        match runSnipeLoop env.claudeResponses with
        | Except.error e =>
          -- `callClaude` threw; the outer catch builds an error result
          (⟨false, [], "", e.inTok, e.outTok, 0,
            estimateCost e.inTok e.outTok,
            ⟨0, 0, sp.sourcesChecked, some sp.diagnostics⟩,
            some "Claude API error", none⟩, e.llmCalls)
        | Except.ok done =>
          let opportunities :=
            match done.finalResponse with
            | some fr => (parseOpportunities env.jsonParse fr).map
                Opportunity.dyn
            | none => []
          let reasoning :=
            match done.finalResponse with
            | some fr => extractReasoning fr
            | none => ""
          (⟨true, opportunities, reasoning, done.inTok, done.outTok,
            1 + done.toolCallsUsed, estimateCost done.inTok done.outTok,
            ⟨sp.totalLeads, sp.allQualified.length, sp.sourcesChecked,
              some sp.diagnostics⟩,
            none, none⟩, done.llmCalls)

/-! # Theorems settling the claims -/

/-! ## C7 — weighted median at the specified entries -/

/-- Claim C7: the weighted median function, applied to the entries
`[{value 100, weight 1}, {value 200, weight 1}, {value 300, weight 3}]`,
returns 300 — the first value, in ascending value order, at which the
cumulative weight reaches half the total weight. -/
theorem c7_weightedMedian_example :
    weightedMedian [⟨100, 1⟩, ⟨200, 1⟩, ⟨300, 3⟩] = 300 := by
  norm_num [weightedMedian, sortJS, sortJS.insertJS, wmWalk]

/-! ## C4 — budget gate -/

/-- Claim C4: for every budget configuration and every stored usage-ledger
state, `checkBudget` returns `allowed = false` iff the recorded total
tokens for today — where a stored entry whose date differs from the
current UTC date, a missing file and a corrupt file all count as zero —
is at least the configured `dailyTokenLimit`. -/
theorem c4_checkBudget_allowed_iff (config : BudgetConfig)
    (stored : Option TokenUsageEntry) (today : String) :
    (checkBudget config stored today).allowed = false ↔
      config.dailyTokenLimit ≤
        (match stored with
         | some u => if u.date = today then u.totalTokens else 0
         | none => 0) := by
  cases stored with
  | none =>
    simp [checkBudget, readUsage, freshUsage]
  | some u =>
    by_cases hd : u.date = today
    · simp [checkBudget, readUsage, freshUsage, hd]
    · simp [checkBudget, readUsage, freshUsage, hd]

/-- Closed instance of C4: with the default budget and a ledger holding
500000 tokens today, the gate refuses. -/
theorem c4_checkBudget_allowed_iff_witness :
    (checkBudget DEFAULT_BUDGET
      (some { date := "2026-10-11", totalTokens := 500000,
              totalInputTokens := 400000, totalOutputTokens := 100000,
              runs := [] }) "2026-10-11").allowed = false :=
  (c4_checkBudget_allowed_iff DEFAULT_BUDGET _ "2026-10-11").mpr (by decide)

/-! ## C2 — crypto opportunity profit -/

/-- A detected spread on which the profit after estimated fees is
negative: a 0.2 % spread on a 100-dollar pair (above the crypto agent's
0.15 % default threshold) loses to the 0.1 % + 0.1 % trading fees plus the
5-dollar withdrawal estimate. -/
def c2spread : CryptoSpread :=
  { pair := "BTC/USD", buyExchange := "Binance", buyPrice := 100,
    buyUrl := "https://binance.example", sellExchange := "Coinbase",
    sellPrice := 501/5, sellUrl := "https://coinbase.example",
    spreadPercent := 1/5, spreadAmount := 1/5 }

/-- Counterexample to C2 as stated: on `c2spread`,
`buildCryptoOpportunities` emits `estimatedProfit = 0` although
`sellPrice - buyPrice - fees.total = -500` (the source clamps with
`Math.max(0, profit)`). -/
theorem c2_counterexample :
    (buildCryptoOpportunities [c2spread]).head?.map
        (fun o => (o.estimatedProfit, o.sellPrice - o.buyPrice - o.fees.total))
      = some (0, -500) ∧ (0 : ℤ) ≠ -500 := by
  norm_num [buildCryptoOpportunities, c2spread, jsRound]

/-- Claim C2, amended: for every `ParsedOpportunity` created by
`buildCryptoOpportunities`, `estimatedProfit` equals
`max 0 (sellPrice - buyPrice - fees.total)` — the profit is clamped at
zero, so it equals `sellPrice - buyPrice - fees.total` exactly when that
difference is non-negative. -/
theorem c2_profit_clamped (spreads : List CryptoSpread)
    (o : ParsedOpportunity) (ho : o ∈ buildCryptoOpportunities spreads) :
    o.estimatedProfit = max 0 (o.sellPrice - o.buyPrice - o.fees.total) := by
  simp only [buildCryptoOpportunities, List.mem_map] at ho
  obtain ⟨s, -, rfl⟩ := ho
  rfl

/-- The first opportunity built from `c2spread`. -/
def c2opp : ParsedOpportunity :=
  (buildCryptoOpportunities [c2spread]).headD
    { title := "", description := "", buyPrice := 0, buySource := "",
      buyUrl := "", sellPrice := 0, sellSource := "", sellUrl := "",
      sellPriceType := "", estimatedProfit := 0, fees := { total := 0 },
      confidence := 0, riskNotes := [], reasoning := "" }

/-- Closed instance of C2 (amended) at `c2spread`. -/
theorem c2_profit_clamped_witness :
    c2opp.estimatedProfit = max 0 (c2opp.sellPrice - c2opp.buyPrice - c2opp.fees.total) :=
  c2_profit_clamped [c2spread] c2opp (List.Mem.head _)

/-! ## C1 — spread qualification invariant -/

/-- Every lead the resale-qualification body emits satisfies the spread
invariant and both thresholds. -/
theorem qualifyLead_spec (h : Helpers)
    (resale : String → Option ResalePriceInfo) (minP : ℤ) (minS : ℚ)
    (lead : ScoutLead) (L : QualifiedLead)
    (heq : qualifyLead h resale minP minS lead = some L) :
    L.estimatedSpread = L.sellPriceEstimate - L.buyPrice ∧
      minP ≤ L.estimatedSpread ∧ minS ≤ L.spreadPercent := by
  unfold qualifyLead at heq
  cases hpf : lead.priceFound with
  | none => rw [hpf] at heq; cases heq
  | some price =>
    rw [hpf] at heq
    dsimp only at heq
    by_cases h1 : price ≤ 0
    · rw [if_pos h1] at heq; cases heq
    · rw [if_neg h1] at heq
      cases hr : (resale lead.url).or (resale lead.title) with
      | none => rw [hr] at heq; cases heq
      | some r =>
        rw [hr] at heq
        dsimp only at heq
        by_cases h2 : r.estimatedPrice = 0
        · rw [if_pos h2] at heq; cases heq
        · rw [if_neg h2] at heq
          by_cases h3 : r.estimatedPrice - price < minP
          · rw [if_pos h3] at heq; cases heq
          · rw [if_neg h3] at heq
            by_cases h4 :
                ((r.estimatedPrice - price : ℤ) : ℚ) / (price : ℚ) * 100 < minS
            · rw [if_pos h4] at heq; cases heq
            · rw [if_neg h4] at heq
              obtain rfl := Option.some.inj heq
              exact ⟨rfl, not_lt.mp h3, not_lt.mp h4⟩

/-- Every lead the deal-feed body emits satisfies the spread identity and
the discount threshold (but no absolute-profit threshold exists on this
path). -/
theorem qualifyDealItem_spec (h : Helpers) (minD : ℚ) (item : DealFeedItem)
    (L : QualifiedLead) (heq : qualifyDealItem h minD item = some L) :
    L.estimatedSpread = L.sellPriceEstimate - L.buyPrice ∧
      minD ≤ L.spreadPercent := by
  unfold qualifyDealItem at heq
  cases hp : (extractDealPricePair item.title).or
      (extractDealPricePair (item.title ++ " " ++ item.description)) with
  | some pr =>
    obtain ⟨dealPrice, regularPrice⟩ := pr
    rw [hp] at heq
    dsimp only at heq
    by_cases h1 :
        minD ≤ ((regularPrice - dealPrice : ℤ) : ℚ) / (regularPrice : ℚ) * 100
    · rw [if_pos h1] at heq
      obtain rfl := Option.some.inj heq
      exact ⟨rfl, h1⟩
    · rw [if_neg h1] at heq; cases heq
  | none =>
    rw [hp] at heq
    dsimp only at heq
    by_cases h1 : (extractAllPrices item.title).length = 2
    · rw [if_pos h1] at heq
      cases hs : sortJS (fun a b => a ≤ b) (extractAllPrices item.title) with
      | nil => rw [hs] at heq; cases heq
      | cons d rest =>
        cases rest with
        | nil => rw [hs] at heq; cases heq
        | cons rg rest2 =>
          cases rest2 with
          | nil =>
            rw [hs] at heq
            dsimp only at heq
            by_cases h2 : d < rg ∧ 0 < d
            · rw [if_pos h2] at heq
              by_cases h3 : minD ≤ ((rg - d : ℤ) : ℚ) / (rg : ℚ) * 100
              · rw [if_pos h3] at heq
                obtain rfl := Option.some.inj heq
                exact ⟨rfl, h3⟩
              · rw [if_neg h3] at heq; cases heq
            · rw [if_neg h2] at heq; cases heq
          | cons _ _ => rw [hs] at heq; cases heq
    · rw [if_neg h1] at heq; cases heq

/-- Claim C1, amended: every `QualifiedLead` produced by
`filterLeadsWithPriceData` satisfies `estimatedSpread = sellPriceEstimate
- buyPrice`, `estimatedSpread ≥ minProfitCents` and `spreadPercent ≥
minSpreadPercent`; every `QualifiedLead` produced by `filterDealFeedItems`
satisfies `estimatedSpread = sellPriceEstimate - buyPrice` and
`spreadPercent ≥` the configured minimum discount percent, but no
`minProfitCents` lower bound is enforced on the deal-feed path.  (The
cited filter's `QualifiedLead` carries no `sellPriceType` field, so the
`sellPriceType ≠ research_needed` guard of the claim excludes nothing.) -/
theorem c1_spread_invariant :
    (∀ (h : Helpers) (leads : List ScoutLead)
       (resale : String → Option ResalePriceInfo) (minP : ℤ) (minS : ℚ)
       (L : QualifiedLead),
       L ∈ filterLeadsWithPriceData h leads resale minP minS →
       L.estimatedSpread = L.sellPriceEstimate - L.buyPrice ∧
         minP ≤ L.estimatedSpread ∧ minS ≤ L.spreadPercent) ∧
    (∀ (h : Helpers) (items : List DealFeedItem) (minD : ℚ)
       (L : QualifiedLead),
       L ∈ filterDealFeedItems h items minD →
       L.estimatedSpread = L.sellPriceEstimate - L.buyPrice ∧
         minD ≤ L.spreadPercent) := by
  constructor
  · intro h leads resale minP minS L hL
    rw [filterLeadsWithPriceData, mem_sortJS, List.mem_filterMap] at hL
    obtain ⟨lead, -, heq⟩ := hL
    exact qualifyLead_spec h resale minP minS lead L heq
  · intro h items minD L hL
    rw [filterDealFeedItems, mem_sortJS, List.mem_filterMap] at hL
    obtain ⟨item, -, heq⟩ := hL
    exact qualifyDealItem_spec h minD item L heq

/-- Trivial helpers instance for concrete evaluations (identity cleaners,
nothing classified as a listing URL). -/
def c1helpers : Helpers := ⟨id, id, fun _ => false⟩

/-- A deal-feed item with an 80 % discount but only a 4-dollar absolute
spread. -/
def c1item : DealFeedItem :=
  { title := "Gadget $1.00 (80% off $5.00)", url := "https://deals.example/1",
    description := "hot", source := "Slickdeals", pubDate := "2026-01-01" }

/-- The qualified lead `filterDealFeedItems` produces from `c1item` at the
runner's deal threshold (25). -/
def c1dealLead : QualifiedLead :=
  { title := "Gadget $1.00 (80% off $5.00)", description := "hot",
    buyPrice := 100, buySource := "Slickdeals",
    buyUrl := "https://deals.example/1", sellPriceEstimate := 500,
    sellSource := "Amazon/eBay",
    sellUrl := "https://www.ebay.com/sch/i.html?_nkw=Gadget $1.00 (80% off $5.00)&LH_Sold=1&LH_Complete=1",
    estimatedSpread := 400, spreadPercent := 80,
    confidence := Confidence.high, category := "Slickdeals",
    raw := RawLead.deal c1item }

/-- Evaluation of the deal filter on `c1item` at the runner's threshold. -/
theorem filterDealFeedItems_c1item :
    filterDealFeedItems c1helpers [c1item] 25 = [c1dealLead] := by
  have h1 : (extractDealPricePair c1item.title).or
      (extractDealPricePair (c1item.title ++ " " ++ c1item.description))
      = some (100, 500) := by decide
  simp only [filterDealFeedItems, List.filterMap, qualifyDealItem, h1]
  norm_num [sortJS, sortJS.insertJS, c1dealLead, c1item, ebaySoldUrl,
    c1helpers]
  decide

/-- Counterexample to C1 as stated: the deal-feed path (invoked by the
runner with discount threshold 25) qualifies `c1item` into a lead whose
`estimatedSpread` (400 cents) is below the configured `minProfitCents` of
the retail agent (1000 cents) — the only agent type that enables deal
feeds. -/
theorem c1_counterexample :
    filterDealFeedItems c1helpers [c1item] 25 = [c1dealLead] ∧
      c1dealLead.estimatedSpread
        = c1dealLead.sellPriceEstimate - c1dealLead.buyPrice ∧
      c1dealLead.estimatedSpread
        < (getScoutConfig AgentType.retail {}).minProfitCents :=
  ⟨filterDealFeedItems_c1item, by decide, by decide⟩

/-- A scout lead and resale map on which the resale path qualifies. -/
def c1scout : ScoutLead :=
  { title := "Aeron chair", url := "https://cl.example/2",
    snippet := "desc", source := "craigslist-sf",
    priceFound := some 1000, category := "furniture" }

/-- Resale oracle for `c1scout`: a 5000-cent estimate from two listing
data points. -/
def c1resale : String → Option ResalePriceInfo := fun s =>
  if s = "https://cl.example/2" then
    some { estimatedPrice := 5000, platform := "eBay",
           url := "https://ebay.example/i/9", dataPoints := 3,
           listingDataPoints := some 2 }
  else none

/-- The lead the resale path produces from `c1scout`/`c1resale`. -/
def c1resaleLead : QualifiedLead :=
  { title := "Aeron chair", description := "desc", buyPrice := 1000,
    buySource := "craigslist-sf", buyUrl := "https://cl.example/2",
    sellPriceEstimate := 5000, sellSource := "eBay",
    sellUrl := "https://ebay.example/i/9", estimatedSpread := 4000,
    spreadPercent := 400, confidence := Confidence.high,
    category := "furniture", raw := RawLead.scout c1scout }

/-- Evaluation of the resale filter on `c1scout`. -/
theorem filterLeads_c1scout :
    filterLeadsWithPriceData c1helpers [c1scout] c1resale 2000 25
      = [c1resaleLead] := by
  simp only [filterLeadsWithPriceData, List.filterMap, qualifyLead, c1scout,
    c1resale]
  norm_num [sortJS, sortJS.insertJS, c1resaleLead]
  exact ⟨fun hc => absurd hc (by decide), by decide⟩

/-- Closed instance of C1 (amended): both conjuncts applied to the
concrete runs above. -/
theorem c1_spread_invariant_witness :
    (c1resaleLead.estimatedSpread
        = c1resaleLead.sellPriceEstimate - c1resaleLead.buyPrice ∧
      (2000 : ℤ) ≤ c1resaleLead.estimatedSpread ∧
      (25 : ℚ) ≤ c1resaleLead.spreadPercent) ∧
    (c1dealLead.estimatedSpread
        = c1dealLead.sellPriceEstimate - c1dealLead.buyPrice ∧
      (25 : ℚ) ≤ c1dealLead.spreadPercent) :=
  ⟨c1_spread_invariant.1 c1helpers [c1scout] c1resale 2000 25 c1resaleLead
      (by rw [filterLeads_c1scout]; exact List.Mem.head _),
   c1_spread_invariant.2 c1helpers [c1item] 25 c1dealLead
      (by rw [filterDealFeedItems_c1item]; exact List.Mem.head _)⟩

/-! ## C5 — the snipe tool-use loop's tool-call cap -/

/-- A tool-use block, as returned by the model. -/
def c5toolBlock : ClaudeContentBlock :=
  { type := "tool_use", id := some "toolu_1" }

/-- A model response carrying six parallel tool-use requests. -/
def c5r1 : ClaudeResponse :=
  { content := List.replicate 6 c5toolBlock, stop_reason := "tool_use",
    usage := { input_tokens := 100, output_tokens := 20 } }

/-- A final model response with no tool-use request. -/
def c5r2 : ClaudeResponse :=
  { content := [{ type := "text", text := some "done" }],
    stop_reason := "end_turn",
    usage := { input_tokens := 50, output_tokens := 10 } }

/-- Claim C5, evaluated at the failing input: on a response stream whose
first response carries six `tool_use` blocks, the loop terminates at the
following tool-free response — but only after executing six tool calls,
exceeding the cap of `maxToolCalls = 5` that the claim (and the source's
own comment, "max 5 tool calls") asserts: the cap is checked before a
response's blocks are executed, and then every block of the response is
executed. -/
theorem c5_toolcalls_exceed_cap :
    (runSnipeLoop [c5r1, c5r2]).toOption =
      some
        { finalResponse := some c5r2, toolCallsUsed := 6, inTok := 150,
          outTok := 30, llmCalls := 2 } ∧
      maxToolCalls < 6 := by decide

/-! ## C3 — queue concurrency cap and per-type eviction -/

/-- The queue module invariant: at most `MAX_CONCURRENT` active runs, at
most one queued entry per agent type, no type both queued and active, and
queued promise identities below the id counter. -/
def QInv (s : QState) : Prop :=
  s.active.length ≤ MAX_CONCURRENT ∧
  (s.queue.map QueuedRun.agentType).Nodup ∧
  (∀ q ∈ s.queue, ∀ e ∈ s.active, e.2 ≠ q.agentType) ∧
  (∀ q ∈ s.queue, q.qid < s.qidCounter)

theorem qInit_inv : QInv qInit := by
  simp [QInv, qInit]

theorem mem_eraseP_type_ne (t : AgentType) (l : List QueuedRun)
    (hnd : (l.map QueuedRun.agentType).Nodup) (q : QueuedRun)
    (hq : q ∈ l.eraseP (fun x => x.agentType = t)) : q.agentType ≠ t := by
  induction l with
  | nil => simp [List.eraseP] at hq
  | cons x xs ih =>
    simp only [List.map_cons, List.nodup_cons] at hnd
    by_cases hx : x.agentType = t
    · simp only [List.eraseP_cons, hx, decide_True, cond_true] at hq
      intro hqt
      exact hnd.1 (hx ▸ hqt ▸ List.mem_map_of_mem QueuedRun.agentType hq)
    · simp only [List.eraseP_cons, hx, decide_False, cond_false] at hq
      rcases List.mem_cons.mp hq with rfl | hq'
      · exact hx
      · exact ih hnd.2 hq'

theorem find_unique_of_nodup (t : AgentType) (l : List QueuedRun)
    (hnd : (l.map QueuedRun.agentType).Nodup) (q : QueuedRun) (hq : q ∈ l)
    (hqt : q.agentType = t) :
    l.find? (fun x => x.agentType = t) = some q := by
  induction l with
  | nil => simp at hq
  | cons x xs ih =>
    simp only [List.map_cons, List.nodup_cons] at hnd
    rcases List.mem_cons.mp hq with rfl | hq'
    · simp [List.find?_cons, hqt]
    · have hx : x.agentType ≠ t := by
        intro hx
        exact hnd.1
          (hx ▸ hqt ▸ List.mem_map_of_mem QueuedRun.agentType hq')
      simp only [List.find?_cons, hx, decide_False]
      exact ih hnd.2 hq'

theorem processQueue_inv (s : QState) (h : QInv s) : QInv (processQueue s) := by
  obtain ⟨h1, h2, h3, h4⟩ := h
  rw [processQueue]
  by_cases ha : s.active.length < MAX_CONCURRENT
  · rw [if_pos ha]
    cases hq : s.queue with
    | nil => exact ⟨h1, by simp [hq] at h2 ⊢, by simp [hq] at h3 ⊢, by simp [hq] at h4 ⊢⟩
    | cons next rest =>
      rw [hq] at h2 h3 h4
      simp only [List.map_cons, List.nodup_cons] at h2
      apply processQueue_inv
      refine ⟨by simp; omega, h2.2, ?_, ?_⟩
      · intro q hqm e hem
        rcases List.mem_append.mp hem with he | he
        · exact h3 q (List.mem_cons_of_mem _ hqm) e he
        · simp only [List.mem_singleton] at he
          subst he
          intro hc
          exact h2.1
            ((show next.agentType = q.agentType from hc) ▸
              List.mem_map_of_mem QueuedRun.agentType hqm)
      · intro q hqm
        exact h4 q (List.mem_cons_of_mem _ hqm)
  · rw [if_neg ha]
    exact ⟨h1, h2, h3, h4⟩
termination_by s.queue.length
decreasing_by simp [hq]

theorem finishRun_inv (rid : ℕ) (s : QState) (h : QInv s) :
    QInv (finishRun rid s) := by
  obtain ⟨h1, h2, h3, h4⟩ := h
  unfold finishRun
  by_cases ha : s.active.any (fun e => e.1 = rid)
  · rw [if_pos ha]
    apply processQueue_inv
    refine ⟨le_trans (List.length_filter_le _ _) h1, h2, ?_, h4⟩
    intro q hq e he
    exact h3 q hq e (List.mem_of_mem_filter he)
  · rw [if_neg ha]
    exact ⟨h1, h2, h3, h4⟩

theorem enqueue_inv (t : AgentType) (s : QState) (h : QInv s) :
    QInv (enqueueAgentRun t s).state := by
  obtain ⟨h1, h2, h3, h4⟩ := h
  have hactive : ∀ e ∈ s.active, e.2 ≠ t → True := fun _ _ _ => trivial
  unfold enqueueAgentRun
  by_cases hrun : isAgentRunning t s
  · rw [if_pos hrun]
    exact ⟨h1, h2, h3, h4⟩
  · rw [if_neg hrun]
    have hnorun : ∀ e ∈ s.active, e.2 ≠ t := by
      intro e he hc
      exact hrun (List.any_eq_true.mpr ⟨e, he, by simp [hc]⟩)
    cases hf : s.queue.find? (fun q => q.agentType = t) with
    | some removed =>
      dsimp only
      have hsub : (s.queue.eraseP (fun q => q.agentType = t)).Sublist s.queue :=
        List.eraseP_sublist _
      have hnotype : ∀ q ∈ s.queue.eraseP (fun q => q.agentType = t),
          q.agentType ≠ t := mem_eraseP_type_ne t s.queue h2
      have h2' : ((s.queue.eraseP (fun q => q.agentType = t)).map
          QueuedRun.agentType).Nodup := (hsub.map _).nodup h2
      have h3' : ∀ q ∈ s.queue.eraseP (fun q => q.agentType = t),
          ∀ e ∈ s.active, e.2 ≠ q.agentType :=
        fun q hq e he => h3 q (hsub.mem hq) e he
      have h4' : ∀ q ∈ s.queue.eraseP (fun q => q.agentType = t),
          q.qid < s.qidCounter := fun q hq => h4 q (hsub.mem hq)
      by_cases hcap : s.active.length < MAX_CONCURRENT
      · rw [if_pos hcap]
        refine ⟨by simp; omega, h2', ?_, h4'⟩
        intro q hq e he
        rcases List.mem_append.mp he with he' | he'
        · exact h3' q hq e he'
        · simp only [List.mem_singleton] at he'
          subst he'
          exact fun hc => hnotype q hq
            ((show t = q.agentType from hc)).symm
      · rw [if_neg hcap]
        refine ⟨h1, ?_, ?_, ?_⟩
        · rw [List.map_append]
          refine List.Nodup.append h2' (by simp) ?_
          intro a ha hb
          simp only [List.map_cons, List.map_nil, List.mem_singleton] at hb
          subst hb
          rcases List.mem_map.mp ha with ⟨q, hq, hqt⟩
          exact hnotype q hq hqt
        · intro q hq e he
          rcases List.mem_append.mp hq with hq' | hq'
          · exact h3' q hq' e he
          · simp only [List.mem_singleton] at hq'
            subst hq'
            exact hnorun e he
        · intro q hq
          rcases List.mem_append.mp hq with hq' | hq'
          · exact lt_trans (h4' q hq') (Nat.lt_succ_self _)
          · simp only [List.mem_singleton] at hq'
            subst hq'
            exact Nat.lt_succ_self _
    | none =>
      dsimp only
      have hnotype : ∀ q ∈ s.queue, q.agentType ≠ t := by
        intro q hq hqt
        have := List.find?_eq_none.mp hf q hq
        simp [hqt] at this
      by_cases hcap : s.active.length < MAX_CONCURRENT
      · rw [if_pos hcap]
        refine ⟨by simp; omega, h2, ?_, h4⟩
        intro q hq e he
        rcases List.mem_append.mp he with he' | he'
        · exact h3 q hq e he'
        · simp only [List.mem_singleton] at he'
          subst he'
          exact fun hc => hnotype q hq
            ((show t = q.agentType from hc)).symm
      · rw [if_neg hcap]
        refine ⟨h1, ?_, ?_, ?_⟩
        · rw [List.map_append]
          refine List.Nodup.append h2 (by simp) ?_
          intro a ha hb
          simp only [List.map_cons, List.map_nil, List.mem_singleton] at hb
          subst hb
          rcases List.mem_map.mp ha with ⟨q, hq, hqt⟩
          exact hnotype q hq hqt
        · intro q hq e he
          rcases List.mem_append.mp hq with hq' | hq'
          · exact h3 q hq' e he
          · simp only [List.mem_singleton] at hq'
            subst hq'
            exact hnorun e he
        · intro q hq
          rcases List.mem_append.mp hq with hq' | hq'
          · exact lt_trans (h4 q hq') (Nat.lt_succ_self _)
          · simp only [List.mem_singleton] at hq'
            subst hq'
            exact Nat.lt_succ_self _

theorem runQueue_inv (evs : List QEvent) : QInv (runQueue evs) := by
  suffices h : ∀ s, QInv s → QInv (evs.foldl qStep s) from h qInit qInit_inv
  induction evs with
  | nil => exact fun s hs => hs
  | cons e rest ih =>
    intro s hs
    apply ih
    cases e with
    | enq t => exact enqueue_inv t s hs
    | fin rid => exact finishRun_inv rid s hs

/-- Claim C3: for every sequence of queue events (enqueue calls with run
completions interleaved) starting from the initial module state, at most
`MAX_CONCURRENT` (2) executions are active simultaneously; and enqueueing
an agent type on the reached state removes and rejects any prior queued
entry of that type, so that at most one queued entry for the type (the
latest) survives. -/
theorem c3_queue_cap_and_eviction (evs : List QEvent) :
    (runQueue evs).active.length ≤ MAX_CONCURRENT ∧
    ∀ t : AgentType,
      ((enqueueAgentRun t (runQueue evs)).state.queue.filter
          (fun q => q.agentType = t)).length ≤ 1 ∧
      ∀ q ∈ (runQueue evs).queue, q.agentType = t →
        q ∉ (enqueueAgentRun t (runQueue evs)).state.queue ∧
        q.qid ∈ (enqueueAgentRun t (runQueue evs)).state.rejected := by
  obtain ⟨h1, h2, h3, h4⟩ := runQueue_inv evs
  refine ⟨h1, ?_⟩
  intro t
  set s := runQueue evs with hs
  unfold enqueueAgentRun
  by_cases hrun : isAgentRunning t s
  · rw [if_pos hrun]
    obtain ⟨e, he, het⟩ := List.any_eq_true.mp hrun
    simp only [decide_eq_true_eq] at het
    have hempty : ∀ q ∈ s.queue, q.agentType ≠ t := by
      intro q hq hqt
      exact h3 q hq e he (het.trans hqt.symm)
    constructor
    · have : s.queue.filter (fun q => q.agentType = t) = [] := by
        rw [List.filter_eq_nil]
        intro q hq
        simp [hempty q hq]
      simp [this]
    · intro q hq hqt
      exact absurd hqt (hempty q hq)
  · rw [if_neg hrun]
    cases hf : s.queue.find? (fun q => q.agentType = t) with
    | none =>
      dsimp only
      have hempty : ∀ q ∈ s.queue, q.agentType ≠ t := by
        intro q hq hqt
        have := List.find?_eq_none.mp hf q hq
        simp [hqt] at this
      have hfilt : s.queue.filter (fun q => q.agentType = t) = [] := by
        rw [List.filter_eq_nil]
        intro q hq
        simp [hempty q hq]
      by_cases hcap : s.active.length < MAX_CONCURRENT
      · rw [if_pos hcap]
        exact ⟨by simp [hfilt], fun q hq hqt => absurd hqt (hempty q hq)⟩
      · rw [if_neg hcap]
        refine ⟨?_, fun q hq hqt => absurd hqt (hempty q hq)⟩
        rw [List.filter_append, hfilt]
        simp
    | some removed =>
      dsimp only
      have hnotype : ∀ q ∈ s.queue.eraseP (fun q => q.agentType = t),
          q.agentType ≠ t := mem_eraseP_type_ne t s.queue h2
      have hfilt : (s.queue.eraseP (fun q => q.agentType = t)).filter
          (fun q => q.agentType = t) = [] := by
        rw [List.filter_eq_nil]
        intro q hq
        simp [hnotype q hq]
      have hiden : ∀ q ∈ s.queue, q.agentType = t → removed = q := by
        intro q hq hqt
        have := find_unique_of_nodup t s.queue h2 q hq hqt
        rw [hf] at this
        exact Option.some.inj this
      by_cases hcap : s.active.length < MAX_CONCURRENT
      · rw [if_pos hcap]
        refine ⟨by simp [hfilt], ?_⟩
        intro q hq hqt
        constructor
        · intro hmem
          exact hnotype q hmem hqt
        · dsimp only
          rw [(hiden q hq hqt)]
          simp
      · rw [if_neg hcap]
        constructor
        · rw [List.filter_append, hfilt]
          simp
        · intro q hq hqt
          constructor
          · intro hmem
            rcases List.mem_append.mp hmem with hm | hm
            · exact hnotype q hm hqt
            · simp only [List.mem_singleton] at hm
              have hlt := h4 q hq
              rw [hm] at hlt
              exact lt_irrefl _ hlt
          · dsimp only
            rw [(hiden q hq hqt)]
            simp

/-- Closed instance of C3: after two runs start and `retail` is queued, a
second `retail` enqueue evicts and rejects queued promise 0; the cap is
respected throughout. -/
def c3trace : List QEvent :=
  [QEvent.enq AgentType.listings, QEvent.enq AgentType.auctions,
   QEvent.enq AgentType.retail]

/-- See `c3trace`. -/
theorem c3_queue_cap_and_eviction_witness :
    (runQueue c3trace).active.length ≤ MAX_CONCURRENT ∧
    ((enqueueAgentRun AgentType.retail (runQueue c3trace)).state.queue.filter
        (fun q => q.agentType = AgentType.retail)).length ≤ 1 ∧
    (⟨0, AgentType.retail⟩ : QueuedRun) ∉
      (enqueueAgentRun AgentType.retail (runQueue c3trace)).state.queue ∧
    (0 : ℕ) ∈
      (enqueueAgentRun AgentType.retail (runQueue c3trace)).state.rejected := by
  obtain ⟨hcap, hev⟩ := c3_queue_cap_and_eviction c3trace
  obtain ⟨hfilt, hq⟩ := hev AgentType.retail
  obtain ⟨hnot, hrej⟩ := hq ⟨0, AgentType.retail⟩ (by decide) rfl
  exact ⟨hcap, hfilt, hnot, hrej⟩

/-! ## C8 — price extraction -/

/-- Refinement definition, following the specification's words: the first
dollar-amount match across the set of regex patterns (`$NN.NN`, `USD NN`,
`price: NN`, in that order), excluding matched values outside the
exclusive dollar range (0, 1000000). -/
def extractPriceSpec (s : String) : Option ℕ :=
  ((execAll matchDollarAt s.toList ++ execAll matchUsdAt s.toList
    ++ execAll matchPriceAt s.toList).filter inRangeCents).head?

/-- The characters of a well-formed money amount: a digits-and-commas run
optionally followed by a 2-digit decimal part. -/
def moneyChars (run : List Char) (frac : Option (Char × Char)) : List Char :=
  run ++ (match frac with
    | some (d1, d2) => ['.', d1, d2]
    | none => [])

/-- The cent value of a well-formed money amount. -/
def moneyCents (run : List Char) (frac : Option (Char × Char)) : ℕ :=
  100 * digitsVal (run.filter Char.isDigit) +
    (match frac with
     | some (d1, d2) => 10 * digitVal d1 + digitVal d2
     | none => 0)

theorem takeWhile_all_append (p : Char → Bool) (l t : List Char)
    (h : ∀ c ∈ l, p c = true) :
    (l ++ t).takeWhile p = l ++ t.takeWhile p := by
  induction l with
  | nil => rfl
  | cons c cs ih =>
    simp only [List.cons_append, List.takeWhile_cons,
      h c (List.mem_cons_self c cs)]
    rw [ih (fun x hx => h x (List.mem_cons_of_mem c hx))]
    simp

theorem takeWhile_all (p : Char → Bool) (l : List Char)
    (h : ∀ c ∈ l, p c = true) : l.takeWhile p = l := by
  have := takeWhile_all_append p l [] h
  simpa using this

theorem amt_not_ws (c : Char) (h : isAmtChar c = true) : isJsWs c = false := by
  simp only [isJsWs, Bool.or_eq_false_iff, decide_eq_false_iff_not]
  refine ⟨⟨⟨⟨⟨?_, ?_⟩, ?_⟩, ?_⟩, ?_⟩, ?_⟩ <;>
    (intro heq; subst heq; exact absurd h (by decide))

theorem isEmpty_false_of_ne_nil (l : List Char) (h : l ≠ []) :
    l.isEmpty = false := by
  cases l with
  | nil => exact absurd rfl h
  | cons a t => rfl

theorem scanAmount_money (run : List Char) (frac : Option (Char × Char))
    (hne : run ≠ []) (hamt : ∀ c ∈ run, isAmtChar c = true)
    (hfrac : match frac with
      | some (d1, d2) => d1.isDigit = true ∧ d2.isDigit = true
      | none => True) :
    scanAmount (moneyChars run frac) = some (moneyCents run frac, []) := by
  cases frac with
  | none =>
    have hmc : moneyChars run none = run := by simp [moneyChars]
    rw [hmc]
    unfold scanAmount
    simp only [takeWhile_all isAmtChar run hamt,
      isEmpty_false_of_ne_nil run hne, Bool.false_eq_true, if_false,
      List.drop_length]
    simp [moneyCents]
  | some d =>
    obtain ⟨d1, d2⟩ := d
    obtain ⟨hd1, hd2⟩ := hfrac
    have hmc : moneyChars run (some (d1, d2)) = run ++ ['.', d1, d2] := rfl
    rw [hmc]
    unfold scanAmount
    rw [takeWhile_all_append isAmtChar run _ hamt]
    have hdot : List.takeWhile isAmtChar ('.' :: [d1, d2]) = [] := by
      rw [List.takeWhile_cons]
      simp [show isAmtChar '.' = false from by decide]
    rw [hdot]
    simp only [List.append_nil, isEmpty_false_of_ne_nil run hne,
      Bool.false_eq_true, if_false, List.drop_left]
    simp only [hd1, hd2, Bool.and_self, if_pos]
    simp only [moneyCents, Option.some.injEq, Prod.mk.injEq, and_true]
    omega

theorem execAllAux_nil (m : List Char → Option (ℕ × List Char)) (n : ℕ) :
    execAllAux m n [] = [] := by
  cases n <;> rfl

theorem extractPrice_money (run : List Char) (frac : Option (Char × Char))
    (hne : run ≠ []) (hamt : ∀ c ∈ run, isAmtChar c = true)
    (hfrac : match frac with
      | some (d1, d2) => d1.isDigit = true ∧ d2.isDigit = true
      | none => True)
    (hrange : inRangeCents (moneyCents run frac) = true) :
    extractPriceL ('$' :: moneyChars run frac)
      = some (moneyCents run frac) := by
  have hskip : skipOneWs (moneyChars run frac) = moneyChars run frac := by
    cases hr : run with
    | nil => exact absurd hr hne
    | cons c cs =>
      have hc : isAmtChar c = true := hamt c (by rw [hr]; exact List.mem_cons_self c cs)
      simp only [moneyChars, hr, List.cons_append, skipOneWs, amt_not_ws c hc,
        Bool.false_eq_true, if_false]
  have hmatch : matchDollarAt ('$' :: moneyChars run frac)
      = some (moneyCents run frac, []) := by
    simp only [matchDollarAt, hskip]
    exact scanAmount_money run frac hne hamt hfrac
  have hexec : execAll matchDollarAt ('$' :: moneyChars run frac)
      = [moneyCents run frac] := by
    unfold execAll
    simp only [List.length_cons]
    rw [show execAllAux matchDollarAt ((moneyChars run frac).length + 1)
        ('$' :: moneyChars run frac)
      = match matchDollarAt ('$' :: moneyChars run frac) with
        | some (v, rest) =>
          v :: execAllAux matchDollarAt (moneyChars run frac).length rest
        | none =>
          execAllAux matchDollarAt (moneyChars run frac).length
            (moneyChars run frac) from rfl]
    rw [hmatch]
    dsimp only
    rw [execAllAux_nil]
  unfold extractPriceL
  rw [hexec]
  simp [List.filter, hrange]

/-- Claim C8: (1) for every input text, `extractPrice` returns the first
in-range match across its three regex patterns in pattern order
(`extractPriceSpec`, the specification's description), `none` when no
in-range match exists; (2) for every well-formed money string `$N`,
`$N.NN` or `$N,NNN.NN` — a `$` followed by a non-empty digits-and-commas
run and an optional two-digit decimal part — whose value lies in the
exclusive range (0, 1000000) dollars, `extractPrice` returns the exact
integer-cent equivalent. -/
theorem c8_extractPrice_contract :
    (∀ s : String, extractPrice s = (extractPriceSpec s).map Int.ofNat) ∧
    (∀ (run : List Char) (frac : Option (Char × Char)),
      run ≠ [] → (∀ c ∈ run, isAmtChar c = true) →
      (match frac with
       | some (d1, d2) => d1.isDigit = true ∧ d2.isDigit = true
       | none => True) →
      inRangeCents (moneyCents run frac) = true →
      extractPrice (String.mk ('$' :: moneyChars run frac))
        = some (Int.ofNat (moneyCents run frac))) := by
  constructor
  · intro s
    unfold extractPrice extractPriceL extractPriceSpec
    rw [List.filter_append, List.filter_append]
  · intro run frac hne hamt hfrac hrange
    show (extractPriceL ('$' :: moneyChars run frac)).map Int.ofNat = _
    rw [extractPrice_money run frac hne hamt hfrac hrange]
    rfl

/-- Closed instance of C8: the comma-and-decimal form `$1,234.56` parses
to 123456 cents, and a text with no in-range match yields `none`. -/
theorem c8_extractPrice_contract_witness :
    extractPrice "$1,234.56" = some 123456 ∧
      extractPrice "worth $0.00 only" = none := by
  obtain ⟨href, hwf⟩ := c8_extractPrice_contract
  constructor
  · have h := hwf ['1', ',', '2', '3', '4'] (some ('5', '6'))
      (by decide) (by decide) (by decide) (by decide)
    have hs : "$1,234.56"
        = String.mk ('$' :: moneyChars ['1', ',', '2', '3', '4'] (some ('5', '6'))) := by
      decide
    rw [hs, h]
    decide
  · rw [href "worth $0.00 only"]
    decide

/-! ## C9 — malformed model output degrades to zero opportunities -/

/-- Claim C9: a final LLM response whose text contains no
`<opportunities>` block, or a block whose content `JSON.parse` rejects,
yields an empty opportunity list from `parseOpportunities`; and any run
that reaches the snipe phase and whose tool-use loop completes returns
`success = true` with the parsed opportunities — so a malformed final
output is not an error. -/
theorem c9_malformed_output_failsafe :
    (∀ (jp : String → Option JValue) (r : ClaudeResponse),
      (extractOppBlock (responseText r) = none ∨
        ∀ inner, extractOppBlock (responseText r) = some inner →
          jp inner = none) →
      parseOpportunities jp r = []) ∧
    (∀ (h : Helpers) (agentType : AgentType) (uc : UserConfig) (env : Env)
       (done : LoopDone),
      (getScoutConfig agentType uc).useCryptoAPIs = false →
      (scoutPhase h (getScoutConfig agentType uc) env).allQualified.length ≠ 0 →
      (checkBudget env.budgetConfig env.usage env.today).allowed = true →
      runSnipeLoop env.claudeResponses = Except.ok done →
      (runScoutThenSnipe h agentType uc env).1.success = true ∧
      (runScoutThenSnipe h agentType uc env).1.opportunities =
        (match done.finalResponse with
         | some fr => (parseOpportunities env.jsonParse fr).map Opportunity.dyn
         | none => [])) := by
  constructor
  · intro jp r hmal
    unfold parseOpportunities
    cases hb : extractOppBlock (responseText r) with
    | none => rfl
    | some inner =>
      dsimp only
      rcases hmal with hnone | hjp
      · rw [hb] at hnone; cases hnone
      · rw [hjp inner hb]
  · intro h agentType uc env done hcr hlen hbud hloop
    unfold runScoutThenSnipe
    dsimp only
    rw [hcr]
    dsimp only
    rw [if_neg hlen, if_neg (by rw [hbud]; simp), hloop]
    exact ⟨rfl, rfl⟩

/-- The empty oracle environment, for concrete runs. -/
def baseEnv : Env :=
  { cryptoPrices := [], craigslist := ⟨[], []⟩, craigslistFallback := [],
    gov := ⟨[], []⟩, discogs := ⟨[], []⟩, sneakers := ⟨[], []⟩,
    books := ⟨[], []⟩, dealFeeds := ⟨[], []⟩, tavilyLeads := [],
    ebayLeads := [], resale1 := fun _ => none, priceLookup := fun _ => none,
    resale2 := fun _ => none, bookQualified := [], usage := none,
    today := "2026-10-11", budgetConfig := DEFAULT_BUDGET,
    claudeResponses := [], jsonParse := fun _ => none }

/-- A book lead for concrete snipe-phase runs. -/
def c9book : BookLead :=
  { title := "Calculus 4th edition", url := "https://openlibrary.example/b",
    snippet := "textbook", source := "Open Library", priceFound := none,
    category := "books" }

/-- A qualified book lead returned by the book-resale oracle. -/
def c9bq : QualifiedLead :=
  { title := "Calculus 4th edition", description := "resale candidate",
    buyPrice := 200, buySource := "Thrift/Library Sale",
    buyUrl := "https://openlibrary.example/b", sellPriceEstimate := 2000,
    sellSource := "eBay", sellUrl := "https://ebay.example/i/1",
    estimatedSpread := 1800, spreadPercent := 900,
    confidence := Confidence.medium, category := "books",
    raw := RawLead.book c9book }

/-- A final response without any opportunities block. -/
def c9resp : ClaudeResponse :=
  { content := [{ type := "text", text := some "I found nothing of value." }],
    stop_reason := "end_turn",
    usage := { input_tokens := 10, output_tokens := 5 } }

/-- A books run that reaches the snipe phase and receives `c9resp`. -/
def c9env : Env :=
  { baseEnv with
    books := ⟨[c9book], []⟩
    bookQualified := [c9bq]
    claudeResponses := [c9resp] }

/-- Closed instance of C9: the concrete run returns success with zero
opportunities although the model's final output has no parsable block. -/
theorem c9_malformed_output_failsafe_witness :
    (runScoutThenSnipe c1helpers AgentType.books {} c9env).1.success = true ∧
    (runScoutThenSnipe c1helpers AgentType.books {} c9env).1.opportunities
      = [] := by
  obtain ⟨hparse, hrun⟩ := c9_malformed_output_failsafe
  have hdone : runSnipeLoop c9env.claudeResponses =
      Except.ok { finalResponse := some c9resp, toolCallsUsed := 0,
                  inTok := 10, outTok := 5, llmCalls := 1 } := by rfl
  obtain ⟨hsucc, hopp⟩ := hrun c1helpers AgentType.books {} c9env _
    (by decide) (by decide) (by decide) hdone
  refine ⟨hsucc, ?_⟩
  rw [hopp]
  dsimp only
  rw [hparse c9env.jsonParse c9resp (Or.inl (by decide))]
  rfl

/-! ## C10 — shape of the parsed opportunity list -/

/-- Total field lookup on a JSON value (objects only; `none` elsewhere),
used to state properties of parsed opportunities. -/
def jField (v : JValue) (k : String) : Option JValue :=
  match v with
  | JValue.obj fields => (fields.find? (fun f => f.1 = k)).map (·.2)
  | _ => none

theorem oppKeep_ok_true (o : JValue) (h : oppKeep o = Except.ok true) :
    jTruthy (jField o "title") = true ∧
    jIsNumber (jField o "buyPrice") = true ∧
    jIsNumber (jField o "sellPrice") = true ∧
    jTruthy (jField o "buySource") = true ∧
    jTruthy (jField o "sellSource") = true := by
  cases o with
  | obj fields =>
    simp only [oppKeep, jGet, jField] at h ⊢
    by_cases h1 : jTruthy ((fields.find? (fun f => f.1 = "title")).map (·.2))
    · by_cases h2 : jIsNumber ((fields.find? (fun f => f.1 = "buyPrice")).map (·.2))
      · by_cases h3 : jIsNumber ((fields.find? (fun f => f.1 = "sellPrice")).map (·.2))
        · by_cases h4 : jTruthy ((fields.find? (fun f => f.1 = "buySource")).map (·.2))
          · by_cases h5 : jTruthy ((fields.find? (fun f => f.1 = "sellSource")).map (·.2))
            · exact ⟨h1, h2, h3, h4, h5⟩
            · simp [h1, h2, h3, h4, h5, pure, Except.pure, Bind.bind, Except.bind] at h
          · simp [h1, h2, h3, h4, pure, Except.pure, Bind.bind, Except.bind] at h
        · simp [h1, h2, h3, pure, Except.pure, Bind.bind, Except.bind] at h
      · simp [h1, h2, pure, Except.pure, Bind.bind, Except.bind] at h
    · simp [h1, pure, Except.pure, Bind.bind, Except.bind] at h
  | null => simp [oppKeep, jGet, Bind.bind, Except.bind] at h
  | bool b => simp [oppKeep, jGet, jTruthy, pure, Except.pure, Bind.bind, Except.bind] at h
  | num q => simp [oppKeep, jGet, jTruthy, pure, Except.pure, Bind.bind, Except.bind] at h
  | str s => simp [oppKeep, jGet, jTruthy, pure, Except.pure, Bind.bind, Except.bind] at h
  | arr xs => simp [oppKeep, jGet, jTruthy, pure, Except.pure, Bind.bind, Except.bind] at h

theorem oppKeep_is_obj (o : JValue) (h : oppKeep o = Except.ok true) :
    ∃ fields, o = JValue.obj fields := by
  cases o with
  | obj fields => exact ⟨fields, rfl⟩
  | null => simp [oppKeep, jGet, Bind.bind, Except.bind] at h
  | bool b => simp [oppKeep, jGet, jTruthy, pure, Except.pure, Bind.bind, Except.bind] at h
  | num q => simp [oppKeep, jGet, jTruthy, pure, Except.pure, Bind.bind, Except.bind] at h
  | str s => simp [oppKeep, jGet, jTruthy, pure, Except.pure, Bind.bind, Except.bind] at h
  | arr xs => simp [oppKeep, jGet, jTruthy, pure, Except.pure, Bind.bind, Except.bind] at h

theorem find_map_set_other (fields : List (String × JValue))
    (kset k : String) (v : JValue) (hk : k ≠ kset) :
    (fields.map (fun f => if f.1 = kset then (kset, v) else f)).find?
        (fun f => f.1 = k)
      = fields.find? (fun f => f.1 = k) := by
  induction fields with
  | nil => rfl
  | cons f fs ih =>
    by_cases hf : f.1 = kset
    · simp only [List.map_cons, if_pos hf, List.find?_cons]
      rw [show (decide (((kset, v) : String × JValue).1 = k)) = false from by
        simp [Ne.symm hk]]
      rw [show (decide (f.1 = k)) = false from by simp [hf, Ne.symm hk]]
      exact ih
    · simp only [List.map_cons, if_neg hf, List.find?_cons]
      cases hfk : decide (f.1 = k) with
      | true => rfl
      | false => exact ih

theorem find_map_set_same (fields : List (String × JValue))
    (kset : String) (v : JValue)
    (hany : fields.any (fun f => f.1 = kset) = true) :
    (fields.map (fun f => if f.1 = kset then (kset, v) else f)).find?
        (fun f => f.1 = kset)
      = some (kset, v) := by
  induction fields with
  | nil => simp at hany
  | cons f fs ih =>
    by_cases hf : f.1 = kset
    · simp [List.map_cons, if_pos hf, List.find?_cons]
    · simp only [List.map_cons, if_neg hf, List.find?_cons,
        show (decide (f.1 = kset)) = false from by simp [hf]]
      refine ih ?_
      simp only [List.any_cons, Bool.or_eq_true] at hany
      rcases hany with h | h
      · simp [hf] at h
      · exact h

theorem objSet_find_other (fields : List (String × JValue)) (kset k : String)
    (v : JValue) (hk : k ≠ kset) :
    (objSet fields kset v).find? (fun f => f.1 = k)
      = fields.find? (fun f => f.1 = k) := by
  unfold objSet
  by_cases hany : fields.any (fun f => f.1 = kset)
  · rw [if_pos hany]
    exact find_map_set_other fields kset k v hk
  · rw [if_neg hany]
    rw [List.find?_append]
    cases hfind : fields.find? (fun f => f.1 = k) with
    | some x => rfl
    | none =>
      simp only [Option.none_or]
      rw [List.find?_cons]
      rw [show (decide (((kset, v) : String × JValue).1 = k)) = false from by
        simp [Ne.symm hk]]
      rfl

theorem objSet_find_same (fields : List (String × JValue)) (kset : String)
    (v : JValue) :
    (objSet fields kset v).find? (fun f => f.1 = kset) = some (kset, v) := by
  unfold objSet
  by_cases hany : fields.any (fun f => f.1 = kset)
  · rw [if_pos hany]
    exact find_map_set_same fields kset v hany
  · rw [if_neg hany]
    rw [List.find?_append]
    have hnone : fields.find? (fun f => f.1 = kset) = none := by
      rw [List.find?_eq_none]
      intro f hf
      simp only [List.any_eq_true, not_exists, not_and] at hany
      exact hany f hf
    rw [hnone]
    simp only [Option.none_or]
    rw [List.find?_cons]
    rw [show (decide (((kset, v) : String × JValue).1 = kset)) = true from by
      simp]

theorem oppDefault_field_other (fields : List (String × JValue)) (k : String)
    (hk : k ≠ "sellPriceType") :
    jField (oppDefault (JValue.obj fields)) k = jField (JValue.obj fields) k := by
  simp only [oppDefault, jField]
  rw [objSet_find_other fields "sellPriceType" k _ hk]

theorem oppDefault_spt_truthy (fields : List (String × JValue)) :
    jTruthy (jField (oppDefault (JValue.obj fields)) "sellPriceType") = true := by
  simp only [oppDefault, jField]
  rw [objSet_find_same]
  simp only [Option.map_some']
  by_cases ht : jTruthy ((fields.find? (fun f => f.1 = "sellPriceType")).map (·.2))
  · rw [if_pos ht]
    cases hcur : (fields.find? (fun f => f.1 = "sellPriceType")).map (·.2) with
    | none => rw [hcur] at ht; exact absurd ht (by simp [jTruthy])
    | some cur =>
      rw [hcur] at ht
      simpa using ht
  · rw [if_neg ht]
    simp [jTruthy]

theorem oppElems_sound (xs os : List JValue)
    (h : oppElems xs = Except.ok os) :
    ∀ o ∈ os, ∃ x ∈ xs, oppKeep x = Except.ok true ∧ o = oppDefault x := by
  induction xs generalizing os with
  | nil =>
    simp only [oppElems, Except.ok.injEq] at h
    subst h
    intro o ho
    simp at ho
  | cons x rest ih =>
    intro o ho
    unfold oppElems at h
    cases hk : oppKeep x with
    | error e => rw [hk] at h; cases h
    | ok keep =>
      rw [hk] at h
      cases ht : oppElems rest with
      | error e =>
        rw [ht] at h
        simp only [Bind.bind, Except.bind] at h
        exact Except.noConfusion h
      | ok tail =>
        rw [ht] at h
        simp only [Bind.bind, Except.bind, pure, Except.pure, Except.ok.injEq] at h
        subst h
        cases keep with
        | true =>
          rw [if_pos rfl] at ho
          rcases List.mem_cons.mp ho with rfl | ho'
          · exact ⟨x, List.mem_cons_self x rest, hk, rfl⟩
          · obtain ⟨y, hy, hky, rfl⟩ := ih tail ht o ho'
            exact ⟨y, List.mem_cons_of_mem x hy, hky, rfl⟩
        | false =>
          rw [if_neg (by simp)] at ho
          obtain ⟨y, hy, hky, rfl⟩ := ih tail ht o ho
          exact ⟨y, List.mem_cons_of_mem x hy, hky, rfl⟩

theorem parseOpportunities_mem (jp : String → Option JValue)
    (r : ClaudeResponse) (o : JValue) (ho : o ∈ parseOpportunities jp r) :
    ∃ x, oppKeep x = Except.ok true ∧ o = oppDefault x := by
  unfold parseOpportunities at ho
  cases hb : extractOppBlock (responseText r) with
  | none => rw [hb] at ho; simp at ho
  | some inner =>
    rw [hb] at ho
    dsimp only at ho
    cases hj : jp inner with
    | none => rw [hj] at ho; simp at ho
    | some parsed =>
      rw [hj] at ho
      dsimp only at ho
      cases parsed with
      | arr xs =>
        dsimp only at ho
        cases he : oppElems xs with
        | error e => rw [he] at ho; simp at ho
        | ok os =>
          rw [he] at ho
          obtain ⟨x, -, hx, rfl⟩ := oppElems_sound xs os he o ho
          exact ⟨x, hx, rfl⟩
      | null => simp at ho
      | bool b => simp at ho
      | num q => simp at ho
      | str s => simp at ho
      | obj fields => simp at ho

/-- Claim C10: every element of the list `parseOpportunities` returns has
a truthy `title`, `buySource` and `sellSource`, numeric `buyPrice` and
`sellPrice`, and a (truthy) `sellPriceType` — defaulted to `"estimated"`
when the model omitted it or gave a falsy one; a parsed value that is not
an array yields the empty list; and every returned element is the
`sellPriceType`-defaulted image of an array element passing the field
check (elements failing it are dropped). -/
theorem c10_parse_shape :
    (∀ (jp : String → Option JValue) (r : ClaudeResponse),
       ∀ o ∈ parseOpportunities jp r,
         jTruthy (jField o "title") = true ∧
         jIsNumber (jField o "buyPrice") = true ∧
         jIsNumber (jField o "sellPrice") = true ∧
         jTruthy (jField o "buySource") = true ∧
         jTruthy (jField o "sellSource") = true ∧
         jTruthy (jField o "sellPriceType") = true) ∧
    (∀ (jp : String → Option JValue) (r : ClaudeResponse) (inner : String)
       (v : JValue),
       extractOppBlock (responseText r) = some inner → jp inner = some v →
       (∀ xs, v ≠ JValue.arr xs) → parseOpportunities jp r = []) ∧
    (∀ (jp : String → Option JValue) (r : ClaudeResponse) (inner : String)
       (xs : List JValue),
       extractOppBlock (responseText r) = some inner →
       jp inner = some (JValue.arr xs) →
       ∀ o ∈ parseOpportunities jp r,
         ∃ x ∈ xs, oppKeep x = Except.ok true ∧ o = oppDefault x) := by
  refine ⟨?_, ?_, ?_⟩
  · intro jp r o ho
    obtain ⟨x, hkeep, rfl⟩ := parseOpportunities_mem jp r o ho
    obtain ⟨fields, rfl⟩ := oppKeep_is_obj x hkeep
    obtain ⟨h1, h2, h3, h4, h5⟩ := oppKeep_ok_true _ hkeep
    refine ⟨?_, ?_, ?_, ?_, ?_, oppDefault_spt_truthy fields⟩ <;>
      rw [oppDefault_field_other fields _ (by decide)] <;> assumption
  · intro jp r inner v hb hj hnot
    unfold parseOpportunities
    rw [hb]
    dsimp only
    rw [hj]
    dsimp only
    cases v with
    | arr xs => exact absurd rfl (hnot xs)
    | null => rfl
    | bool b => rfl
    | num q => rfl
    | str s => rfl
    | obj fields => rfl
  · intro jp r inner xs hb hj o ho
    unfold parseOpportunities at ho
    rw [hb] at ho
    dsimp only at ho
    rw [hj] at ho
    dsimp only at ho
    cases he : oppElems xs with
    | error e => rw [he] at ho; simp at ho
    | ok os =>
      rw [he] at ho
      exact oppElems_sound xs os he o ho

/-- An opportunity element passing every field check (no explicit
`sellPriceType`, so the map must default it). -/
def c10good : JValue :=
  JValue.obj [("title", JValue.str "Rare lamp"), ("buyPrice", JValue.num 50),
    ("sellPrice", JValue.num 120), ("buySource", JValue.str "craigslist"),
    ("sellSource", JValue.str "ebay")]

/-- An element with a non-numeric `buyPrice`, dropped by the filter. -/
def c10bad : JValue :=
  JValue.obj [("title", JValue.str "no prices"), ("buyPrice", JValue.str "fifty")]

/-- A concrete `JSON.parse` oracle for the two inner texts used below. -/
def c10jp : String → Option JValue :=
  fun s =>
    if s = "[1]" then some (JValue.arr [c10good, c10bad])
    else if s = "null" then some JValue.null
    else none

/-- A response whose opportunities block parses to `[c10good, c10bad]`. -/
def c10resp : ClaudeResponse :=
  { content := [{ type := "text",
                  text := some "Here: <opportunities>[1]</opportunities> bye" }],
    stop_reason := "end_turn",
    usage := { input_tokens := 10, output_tokens := 5 } }

/-- A response whose opportunities block parses to a non-array. -/
def c10respBad : ClaudeResponse :=
  { content := [{ type := "text",
                  text := some "<opportunities> null </opportunities>" }],
    stop_reason := "end_turn",
    usage := { input_tokens := 10, output_tokens := 5 } }

/-- Closed instance of C10 on a concrete response: the kept element has
all required fields truthy/numeric including the defaulted
`sellPriceType`; a non-array parse yields `[]`; and the returned element
is the defaulted image of a kept array element. -/
theorem c10_parse_shape_witness :
    (jTruthy (jField (oppDefault c10good) "title") = true ∧
     jIsNumber (jField (oppDefault c10good) "buyPrice") = true ∧
     jIsNumber (jField (oppDefault c10good) "sellPrice") = true ∧
     jTruthy (jField (oppDefault c10good) "buySource") = true ∧
     jTruthy (jField (oppDefault c10good) "sellSource") = true ∧
     jTruthy (jField (oppDefault c10good) "sellPriceType") = true) ∧
    parseOpportunities c10jp c10respBad = [] ∧
    (∃ x ∈ [c10good, c10bad], oppKeep x = Except.ok true ∧
       oppDefault c10good = oppDefault x) := by
  refine ⟨?_, ?_, ?_⟩
  · exact c10_parse_shape.1 c10jp c10resp (oppDefault c10good) (by
      rw [show parseOpportunities c10jp c10resp = [oppDefault c10good] from rfl]
      exact List.mem_singleton_self _)
  · exact c10_parse_shape.2.1 c10jp c10respBad "null" JValue.null rfl rfl
      (fun xs h => JValue.noConfusion h)
  · exact c10_parse_shape.2.2 c10jp c10resp "[1]" [c10good, c10bad] rfl rfl
      (oppDefault c10good) (by
        rw [show parseOpportunities c10jp c10resp = [oppDefault c10good] from rfl]
        exact List.mem_singleton_self _)


/-! ## C6 — zero qualified leads is a successful terminal state -/

/-- A string append with a non-empty left part is non-empty. -/
theorem append_ne_empty_left (a b : String) (ha : a.length ≠ 0) :
    a ++ b ≠ "" := by
  intro hc
  have hl := congrArg String.length hc
  rw [String.length_append] at hl
  simp at hl
  exact ha hl.1

/-- Claim C6: on any run whose filtering yields zero qualified leads (and
that is not the crypto short-circuit, which skips filtering),
`runScoutThenSnipe` returns `success = true`, an empty opportunities
array and a non-empty reasoning string containing the scouted-lead
count, with both token totals zero and no LLM call made. -/
theorem c6_zero_qualified_success (h : Helpers) (agentType : AgentType)
    (uc : UserConfig) (env : Env)
    (hcr : (getScoutConfig agentType uc).useCryptoAPIs = false)
    (hq : (scoutPhase h (getScoutConfig agentType uc) env).allQualified.length
      = 0) :
    (runScoutThenSnipe h agentType uc env).1.success = true ∧
    (runScoutThenSnipe h agentType uc env).1.opportunities = [] ∧
    (runScoutThenSnipe h agentType uc env).1.reasoning ≠ "" ∧
    (∃ a b : String,
      (runScoutThenSnipe h agentType uc env).1.reasoning =
        a ++ toString
          (scoutPhase h (getScoutConfig agentType uc) env).totalLeads ++ b) ∧
    (runScoutThenSnipe h agentType uc env).1.totalInputTokens = 0 ∧
    (runScoutThenSnipe h agentType uc env).1.totalOutputTokens = 0 ∧
    (runScoutThenSnipe h agentType uc env).2 = 0 := by
  unfold runScoutThenSnipe
  dsimp only
  rw [hcr]
  dsimp only
  rw [if_pos hq]
  refine ⟨rfl, rfl, ?_, ?_, rfl, rfl, rfl⟩
  · show "Scouted "
        ++ toString (scoutPhase h (getScoutConfig agentType uc) env).totalLeads
        ++ " leads across "
        ++ String.intercalate ", "
            (scoutPhase h (getScoutConfig agentType uc) env).sourcesChecked
        ++ ". No leads passed the minimum profit threshold of $"
        ++ jsToFixed (((getScoutConfig agentType uc).minProfitCents : ℚ) / 100) 0
        ++ "."
        ++ (if diagSummary
              (scoutPhase h (getScoutConfig agentType uc) env).diagnostics ≠ ""
            then " Source issues: "
              ++ diagSummary
                  (scoutPhase h (getScoutConfig agentType uc) env).diagnostics
            else "") ≠ ""
    simp only [String.append_assoc]
    exact append_ne_empty_left _ _ (by decide)
  · refine ⟨"Scouted ",
      " leads across "
        ++ String.intercalate ", "
            (scoutPhase h (getScoutConfig agentType uc) env).sourcesChecked
        ++ ". No leads passed the minimum profit threshold of $"
        ++ jsToFixed (((getScoutConfig agentType uc).minProfitCents : ℚ) / 100) 0
        ++ "."
        ++ (if diagSummary
              (scoutPhase h (getScoutConfig agentType uc) env).diagnostics ≠ ""
            then " Source issues: "
              ++ diagSummary
                  (scoutPhase h (getScoutConfig agentType uc) env).diagnostics
            else ""), ?_⟩
    simp only [String.append_assoc]


/-- Closed instance of C6: a listings run over the empty oracle
environment qualifies zero leads and returns the zero-LLM explanatory
result. -/
theorem c6_zero_qualified_success_witness :
    (runScoutThenSnipe c1helpers AgentType.listings {} baseEnv).1.success
      = true ∧
    (runScoutThenSnipe c1helpers AgentType.listings {} baseEnv).1.opportunities
      = [] ∧
    (runScoutThenSnipe c1helpers AgentType.listings {} baseEnv).1.reasoning
      ≠ "" ∧
    (∃ a b : String,
      (runScoutThenSnipe c1helpers AgentType.listings {} baseEnv).1.reasoning =
        a ++ toString
          (scoutPhase c1helpers (getScoutConfig AgentType.listings {})
            baseEnv).totalLeads ++ b) ∧
    (runScoutThenSnipe c1helpers AgentType.listings {}
      baseEnv).1.totalInputTokens = 0 ∧
    (runScoutThenSnipe c1helpers AgentType.listings {}
      baseEnv).1.totalOutputTokens = 0 ∧
    (runScoutThenSnipe c1helpers AgentType.listings {} baseEnv).2 = 0 :=
  c6_zero_qualified_success c1helpers AgentType.listings {} baseEnv
    (by decide) (by decide)

end Airbitrage
